import Mathlib

/-!
# tixbar: the toplevel monitor daemon (`src/toplevel_monitor.c`)

A shallow embedding of the daemon: C text is a list of characters, the
intrusive `wl_list`s are Lean lists whose head is the element inserted last,
the compositor and the control channel are explicit inputs, and everything the
program does to the outside (lines on stdout, requests on a toplevel handle)
is returned as a list of `effect`s.
-/

namespace Tixbar

/-! ## C text -/

/-- The bytes of a NUL-terminated C string, the terminator left out. One `Char`
stands for one byte; a `CStr` handed to the program holds no NUL. -/
abbrev CStr := List Char

/-- The view C string functions have of a buffer: the bytes before the first NUL. -/
def c_str (buf : List Char) : CStr := buf.takeWhile (fun c => c != Char.ofNat 0)

/-- `strcmp(a, b) == 0`. -/
def strcmp_eq (a b : CStr) : Bool := a == b

/-- `strncmp(a, b, n) == 0`: the first `n` bytes agree, an earlier end of one
string counting as a difference unless both end there. -/
def strncmp_eq (a b : CStr) (n : Nat) : Bool := a.take n == b.take n

/-- `s[strcspn(s, "\n")] = 0`: cut the string at its first newline. -/
def cut_at_newline (s : CStr) : CStr := s.takeWhile (fun c => c != '\n')

/-- `strncat(dest, src, n)`: append at most `n` bytes of `src`. -/
def strncat (dest src : CStr) (n : Nat) : CStr := dest ++ src.take n

/-- `snprintf(buf, size, ...)` keeps at most `size - 1` bytes of the formatted text. -/
def snprintf (size : Nat) (formatted : CStr) : CStr := formatted.take (size - 1)

/-- `isspace` in the C locale. -/
def isspace (c : Char) : Bool :=
  c == ' ' || c == '\t' || c == '\n' || c == Char.ofNat 11 || c == Char.ofNat 12 || c == '\r'

/-- `printf("%u", n)` for a 32-bit unsigned `n`. -/
def fmt_u (n : Nat) : CStr := Nat.toDigits 10 n

/-- The tokens that `strtok(s, delim)` followed by `strtok(NULL, delim)` calls
return, in order: the maximal runs of non-delimiter bytes. `cur` holds the
bytes of the token being read, last byte first. -/
def strtok_aux (delim : CStr) : List Char → List Char → List CStr
  | [], [] => []
  | [], c :: cur => [(c :: cur).reverse]
  | c :: r, cur =>
    if delim.contains c then
      (if cur.isEmpty then strtok_aux delim r [] else cur.reverse :: strtok_aux delim r [])
    else strtok_aux delim r (c :: cur)

/-- All tokens of `s` for the delimiter set `delim`, as successive `strtok` calls return them. -/
def strtok (s delim : CStr) : List CStr := strtok_aux delim s []

/-- `getline` until end of file: every line with its newline, the last one
possibly without, each seen as the C string it is read as. -/
def getlines_aux : List Char → List Char → List CStr
  | [], [] => []
  | [], cur => [c_str cur.reverse]
  | c :: r, cur => if c = '\n' then c_str (c :: cur).reverse :: getlines_aux r [] else getlines_aux r (c :: cur)

/-- All lines of a file, in order, as `getline` returns them. -/
def getlines (content : List Char) : List CStr := getlines_aux content []

/-! ## Data model -/

/-- The record `struct desktop_app`. -/
structure desktop_app where
  app_id : CStr
  name : CStr
  generic_name : CStr
  icon : CStr
  bin : CStr
  actions : CStr
deriving DecidableEq, Repr

/-- The record `struct toplevel`; `handle` names the compositor-side object,
`title` and `app_id` are `none` while the C pointer is NULL. -/
structure toplevel where
  id : Nat
  title : Option CStr
  app_id : Option CStr
  handle : Nat
  window_state : Nat
deriving DecidableEq, Repr

/-- The record `struct client_state`; both lists are `wl_list`s, head first. -/
structure client_state where
  wl_seat : Option Nat
  toplevels : List toplevel
  desktop_apps : List desktop_app
deriving DecidableEq, Repr

/-- What the program does to the outside world. -/
inductive effect where
  | stdout (line : CStr)
  | stderr (line : CStr)
  | activate (handle seat : Nat)
  | set_minimized (handle : Nat)
  | unset_minimized (handle : Nat)
  | close (handle : Nat)
  | destroy (handle : Nat)
  | display_disconnect
deriving DecidableEq, Repr

/-- `wl_list_insert(list, elm)`: the element goes right behind the list head,
which is where `wl_list_for_each` starts. -/
def wl_list_insert {α : Type} (list : List α) (elm : α) : List α := elm :: list

/-! ## Window state -/

/-- Modelled from the spec: the generated protocol header
`gen/wlr-foreign-toplevel-management-unstable-v1-client-protocol.h` is not in the
source tree; the value is the one the protocol's `state` enum gives `maximized`. -/
def ZWLR_FOREIGN_TOPLEVEL_HANDLE_V1_STATE_MAXIMIZED : Nat := 0

/-- Modelled from the spec: value of `minimized` in the protocol's `state` enum
(header not in the source tree). -/
def ZWLR_FOREIGN_TOPLEVEL_HANDLE_V1_STATE_MINIMIZED : Nat := 1

/-- Modelled from the spec: value of `activated` in the protocol's `state` enum
(header not in the source tree). -/
def ZWLR_FOREIGN_TOPLEVEL_HANDLE_V1_STATE_ACTIVATED : Nat := 2

/-- Modelled from the spec: value of `fullscreen` in the protocol's `state` enum
(header not in the source tree). -/
def ZWLR_FOREIGN_TOPLEVEL_HANDLE_V1_STATE_FULLSCREEN : Nat := 3

/-- The `window_state` that `toplevel_handle_state` stores: zero, then every
entry of the state array or-ed in. -/
def toplevel_handle_state_value (s : List Nat) : Nat := s.foldl (fun acc entry => acc ||| entry) 0

/-- Callback `toplevel_handle_state`. -/
def toplevel_handle_state (t : toplevel) (s : List Nat) : toplevel :=
  { t with window_state := toplevel_handle_state_value s }

/-- Function `format_state_string`, returning the final buffer text. -/
def format_state_string (state : Nat) (buffer_len : Nat) : CStr :=
  let buffer : CStr := []
  let buffer := if state &&& ZWLR_FOREIGN_TOPLEVEL_HANDLE_V1_STATE_MAXIMIZED != 0
    then strncat buffer "Maximized ".toList (buffer_len - buffer.length - 1) else buffer
  let buffer := if state &&& ZWLR_FOREIGN_TOPLEVEL_HANDLE_V1_STATE_MINIMIZED != 0
    then strncat buffer "Minimized ".toList (buffer_len - buffer.length - 1) else buffer
  let buffer := if state &&& ZWLR_FOREIGN_TOPLEVEL_HANDLE_V1_STATE_ACTIVATED != 0
    then strncat buffer "Active ".toList (buffer_len - buffer.length - 1) else buffer
  let buffer := if state &&& ZWLR_FOREIGN_TOPLEVEL_HANDLE_V1_STATE_FULLSCREEN != 0
    then strncat buffer "Fullscreen ".toList (buffer_len - buffer.length - 1) else buffer
  if buffer.isEmpty then strncat buffer "Normal".toList (buffer_len - buffer.length - 1)
  else if buffer.getLast? == some ' ' then buffer.dropLast else buffer

/-! ## Identity resolution and the done event -/

/-- The value of the local `final_app_id` at the `printf` of `toplevel_handle_done`:
phase 1 looks for a descriptor whose `app_id` is the reported one, phase 2 for
the first descriptor, in list order, whose non-empty name is the title. -/
def final_app_id (state : client_state) (t : toplevel) : Option CStr :=
  let direct_match_found : Bool :=
    match t.app_id with
    | some reported => state.desktop_apps.any (fun app => strcmp_eq app.app_id reported)
    | none => false
  if direct_match_found then t.app_id
  else
    match t.title with
    | none => t.app_id
    | some title =>
      match state.desktop_apps.find? (fun app => !strcmp_eq app.name [] && strcmp_eq app.name title) with
      | some app => some app.app_id
      | none => t.app_id

/-- The text of an `UPDATE` line. -/
def update_line (id : Nat) (app_id state_str title : CStr) : CStr :=
  "UPDATE ID=".toList ++ fmt_u id ++ " APPID=\"".toList ++ app_id ++ "\" STATE=\"".toList
    ++ state_str ++ "\" TITLE=\"".toList ++ title ++ "\"\n".toList

/-- Callback `toplevel_handle_done`: one `UPDATE` line. -/
def toplevel_handle_done (state : client_state) (t : toplevel) : List effect :=
  [effect.stdout (update_line t.id ((final_app_id state t).getD [])
    (format_state_string t.window_state 256) (t.title.getD []))]

/-! ## Descriptor files -/

/-- One name returned by `readdir`; `content` is `none` when `fopen` on it fails. -/
structure dir_entry where
  d_name : CStr
  content : Option (List Char)
deriving DecidableEq, Repr

/-- A directory: `none` when it cannot be opened. -/
abbrev directory := Option (List dir_entry)

/-- The three descriptor directories, the only ones the file system holds.
`home` is `none` when `HOME` is not set, else the directory
`$HOME/.local/share/applications`, and `home_dir` is then the value of `HOME`.
A `d_name` holds no `/`. -/
structure file_system where
  home : Option directory
  usr_share : directory
  flatpak : directory
  home_dir : CStr := "/home/user".toList
deriving DecidableEq, Repr

/-- `fopen(dir/file_name, "r")`: the content when it can be read. -/
def fopen (dir : directory) (file_name : CStr) : Option (List Char) :=
  match dir with
  | none => none
  | some entries =>
    match entries.find? (fun e => e.d_name == file_name) with
    | some e => e.content
    | none => none

/-- The text `snprintf` produces for a format that is data, with the one string
argument `arg`: `%%` gives `%` and the first `%s` gives `arg`. Any other
conversion has no defined result (`none`). `used` tells whether the argument
is consumed already, `out` holds the text produced so far, last byte first. -/
def format_with_arg (arg : CStr) : CStr → Bool → List Char → Option CStr
  | [], _, out => some out.reverse
  | c :: r, used, out =>
    if c == '%' then
      match r with
      | [] => none
      | d :: r2 =>
        if d == '%' then format_with_arg arg r2 used ('%' :: out)
        else if d == 's' && !used then format_with_arg arg r2 true (arg.reverse ++ out)
        else none
    else format_with_arg arg r used (c :: out)

/-- The path tried for the user directory: `home_desktop_path_buffer`, already
holding the formatted path, is used once more as the format of
`snprintf(desktop_path, sizeof(desktop_path), possible_filenames[i], app_id)`;
both buffers have 1024 bytes. -/
def home_desktop_path (home_dir app_id : CStr) : Option CStr :=
  let home_desktop_path_buffer :=
    snprintf 1024 (home_dir ++ "/.local/share/applications/".toList ++ app_id ++ ".desktop".toList)
  (format_with_arg app_id home_desktop_path_buffer false []).map (snprintf 1024)

/-- `fopen` on a path tried for the user directory: the path names a file of the
user directory when it starts with the path of that directory; no other path
exists. -/
def fopen_home (home_dir : CStr) (dir : directory) (path : CStr) : Option (List Char) :=
  let dir_path := home_dir ++ "/.local/share/applications/".toList
  if dir_path.isPrefixOf path then fopen dir (path.drop dir_path.length) else none

/-- The `possible_filenames` loop shared by both lookup functions: the first
file that opens among `/usr/share/applications`, the flatpak exports and the
user directory, in that order. `desktop_path` has 1024 bytes, so behind the
directory the file name is cut to what is left of 1023 bytes; where the path
for the user directory has no defined text the open is taken to fail. -/
def open_desktop_file (fs : file_system) (app_id : CStr) : Option (List Char) :=
  let file_name := app_id ++ ".desktop".toList
  match fopen fs.usr_share (file_name.take (1023 - "/usr/share/applications/".toList.length)) with
  | some f => some f
  | none =>
    match fopen fs.flatpak
        (file_name.take (1023 - "/var/lib/flatpak/exports/share/applications/".toList.length)) with
    | some f => some f
    | none =>
      match fs.home with
      | some dir =>
        match home_desktop_path fs.home_dir app_id with
        | some path => fopen_home fs.home_dir dir path
        | none => none
      | none => none

/-- The `Exec` branch of `get_field_from_desktop_file`: cut the value at its
first `%` and at the spaces right before it. -/
def exec_trim (value : CStr) : CStr :=
  if value.contains '%' then (value.takeWhile (fun c => c != '%')).rdropWhile (fun c => c == ' ')
  else value

/-- The body of the `getline` loop of `get_field_from_desktop_file` for one line. -/
def field_value (field_name : CStr) (line : CStr) : Option CStr :=
  if strncmp_eq line field_name field_name.length && line.get? field_name.length == some '=' then
    let value := cut_at_newline (line.drop (field_name.length + 1))
    some (if strcmp_eq field_name "Exec".toList then exec_trim value else value)
  else none

/-- Function `get_field_from_desktop_file` (its `app_id` is never NULL at the call sites). -/
def get_field_from_desktop_file (fs : file_system) (app_id field_name : CStr) : Option CStr :=
  match open_desktop_file fs app_id with
  | none => none
  | some content => (getlines content).findSome? (field_value field_name)

/-- First loop of `get_actions_from_desktop_file`, one line. -/
def actions_line (line : CStr) : Option CStr :=
  if strncmp_eq line "Actions=".toList 8 then some (cut_at_newline (line.drop 8)) else none

/-- The inner `getline` loop of `get_actions_from_desktop_file` after `rewind`:
returns `action_name` and `action_exec` as they are when the loop ends. -/
def scan_action_section (section_header : CStr) :
    List CStr → Bool → Option CStr → Option CStr → Option CStr × Option CStr
  | [], _, action_name, action_exec => (action_name, action_exec)
  | line :: rest, in_section, action_name, action_exec =>
    let trimmed_line := cut_at_newline (line.dropWhile isspace)
    if strcmp_eq trimmed_line section_header then
      scan_action_section section_header rest true action_name action_exec
    else if in_section && trimmed_line.head? == some '[' then (action_name, action_exec)
    else
      let found : Option CStr × Option CStr :=
        if in_section then
          if strncmp_eq trimmed_line "Name=".toList 5 && action_name.isNone then
            (some (trimmed_line.drop 5), action_exec)
          else if strncmp_eq trimmed_line "Exec=".toList 5 && action_exec.isNone then
            (action_name, some (trimmed_line.drop 5))
          else (action_name, action_exec)
        else (action_name, action_exec)
      if found.1.isSome && found.2.isSome then found
      else scan_action_section section_header rest in_section found.1 found.2

/-- One round of the `strtok` loop of `get_actions_from_desktop_file`. -/
def add_action (lines : List CStr) (final_output : CStr) (action_id : CStr) : CStr :=
  let section_header := snprintf 256 ("[Desktop Action ".toList ++ action_id ++ "]".toList)
  match scan_action_section section_header lines false none none with
  | (some action_name, some action_exec) =>
    let entry := snprintf 1024 (action_name ++ "|".toList ++ action_exec ++ ";".toList)
    if final_output.length + entry.length < 4096 then final_output ++ entry else final_output
  | _ => final_output

/-- Function `get_actions_from_desktop_file`. -/
def get_actions_from_desktop_file (fs : file_system) (app_id : CStr) : Option CStr :=
  match open_desktop_file fs app_id with
  | none => none
  | some content =>
    let lines := getlines content
    match lines.findSome? actions_line with
    | none => none
    | some actions_list_str =>
      if actions_list_str.isEmpty then none
      else some (((strtok actions_list_str ";".toList).foldl (add_action lines) []).dropLast)

/-- The text of a `DB` line. -/
def db_line (app_id name generic_name icon bin actions : CStr) : CStr :=
  "DB APPID=\"".toList ++ app_id ++ "\" NAME=\"".toList ++ name ++ "\" GENERIC_NAME=\"".toList
    ++ generic_name ++ "\" ICON=\"".toList ++ icon ++ "\" BIN=\"".toList ++ bin
    ++ "\" ACTIONS=\"".toList ++ actions ++ "\"\n".toList

/-- What a scan carries along: the processed identifiers, the catalog and the
lines printed so far. -/
structure scan_state where
  processed_app_ids : List CStr
  desktop_apps : List desktop_app
  out : List effect
deriving DecidableEq, Repr

/-- The test `name_len > suffix_len && strcmp(name + name_len - suffix_len, ".desktop") == 0`
of `query_desktop_files`. -/
def has_desktop_suffix (name : CStr) : Bool :=
  let suffix_len := ".desktop".toList.length
  name.length > suffix_len && strcmp_eq (name.drop (name.length - suffix_len)) ".desktop".toList

/-- Body of the `readdir` loop of `query_desktop_files` for one name. -/
def query_entry (fs : file_system) (st : scan_state) (name : CStr) : scan_state :=
  if has_desktop_suffix name then
    let app_id := name.take (name.length - ".desktop".toList.length)
    if st.processed_app_ids.any (fun p => strcmp_eq p app_id) then st
    else
      let app_name := (get_field_from_desktop_file fs app_id "Name".toList).getD []
      let generic_name := (get_field_from_desktop_file fs app_id "GenericName".toList).getD []
      let icon_name := (get_field_from_desktop_file fs app_id "Icon".toList).getD []
      let bin_path := (get_field_from_desktop_file fs app_id "Exec".toList).getD []
      let actions_str := (get_actions_from_desktop_file fs app_id).getD []
      { processed_app_ids := wl_list_insert st.processed_app_ids app_id
        desktop_apps := wl_list_insert st.desktop_apps
          { app_id := app_id, name := app_name, generic_name := generic_name, icon := icon_name,
            bin := bin_path, actions := actions_str }
        out := st.out ++ [effect.stdout
          (db_line app_id app_name generic_name icon_name bin_path actions_str)] }
  else st

/-- The array `app_dirs` up to its first NULL, each entry as `opendir` sees it:
the user directory comes first, and when `HOME` is not set the first entry is
already NULL. The path of the user directory is written into a buffer of 1024
bytes; a path cut there is not the path of the directory and does not open. -/
def app_dirs (fs : file_system) : List directory :=
  match fs.home with
  | none => []
  | some dir =>
    [if (fs.home_dir ++ "/.local/share/applications".toList).length ≤ 1023 then dir else none,
     fs.usr_share, fs.flatpak]

/-- One directory of the scan; a directory that does not open is skipped. -/
def query_dir (fs : file_system) (st : scan_state) (dir : directory) : scan_state :=
  match dir with
  | none => st
  | some entries => (entries.map (fun e => e.d_name)).foldl (query_entry fs) st

/-- Function `query_desktop_files`: the new catalog and the `DB` lines printed. -/
def query_desktop_files (fs : file_system) (state : client_state) : client_state × List effect :=
  let st := (app_dirs fs).foldl (query_dir fs)
    { processed_app_ids := [], desktop_apps := state.desktop_apps, out := [] }
  ({ state with desktop_apps := st.desktop_apps }, st.out)

/-! ## Control commands -/

/-- The value of a run of decimal digits. -/
def digits_value (ds : List Char) : Nat := ds.foldl (fun acc c => 10 * acc + (c.toNat - 48)) 0

/-- Library function `atoi`, as glibc has it, `(int) strtol(s, NULL, 10)`: leading
white space, an optional sign, the longest run of digits (none gives 0), the
value clamped to a 64-bit `long` and then cut to a 32-bit `int`. -/
def atoi (s : CStr) : Int :=
  let s := s.dropWhile isspace
  let negative : Bool := s.head? == some '-'
  let s := if s.head? == some '-' || s.head? == some '+' then s.drop 1 else s
  let v : Int := digits_value (s.takeWhile Char.isDigit)
  let v : Int := if negative then -v else v
  let v : Int := if v > 2 ^ 63 - 1 then 2 ^ 63 - 1 else if v < -(2 ^ 63) then -(2 ^ 63) else v
  (v + 2 ^ 31) % 2 ^ 32 - 2 ^ 31

/-- The conversion of the `int id` to `uint32_t` in the comparison `t->id == id`. -/
def uint32_of_int (v : Int) : Nat := (v % 2 ^ 32).toNat

/-- Function `handle_command` on one line of the control channel. -/
def handle_command (fs : file_system) (state : client_state) (command : CStr) :
    client_state × List effect :=
  match strtok command " \n".toList with
  | [] => (state, [])
  | cmd :: args =>
    if strcmp_eq cmd "QUERY".toList then
      let r := query_desktop_files fs state
      (r.1, r.2 ++ [effect.stdout "QUERY_DONE\n".toList])
    else if strcmp_eq cmd "MINIMIZEALL".toList then
      (state, state.toplevels.map (fun t => effect.set_minimized t.handle))
    else
      match args with
      | [] => (state, [])
      | id_str :: _ =>
        let id := atoi id_str
        match state.toplevels.find? (fun t => t.id == uint32_of_int id) with
        | none => (state, [])
        | some target =>
          if strcmp_eq cmd "ACTIVATE".toList then
            match state.wl_seat with
            | some seat => (state, [effect.activate target.handle seat])
            | none => (state, [])
          else if strcmp_eq cmd "MINIMIZE".toList then (state, [effect.set_minimized target.handle])
          else if strcmp_eq cmd "UNMINIMIZE".toList then (state, [effect.unset_minimized target.handle])
          else if strcmp_eq cmd "CLOSE".toList then (state, [effect.close target.handle])
          else (state, [])

/-! ## The window feed -/

/-- The `client_state` of `main` together with the static counter `next_toplevel_id`. -/
structure program_state where
  state : client_state
  next_toplevel_id : Nat
deriving DecidableEq, Repr

/-- The events of the compositor that reach a listener of the program. An event
on a toplevel handle carries the handle `h`; its listener data is the
`toplevel` created for that handle. -/
inductive wl_event where
  | toplevel (handle : Nat)
  | finished
  | title (h : Nat) (title : CStr)
  | app_id (h : Nat) (app_id : CStr)
  | state (h : Nat) (s : List Nat)
  | done (h : Nat)
  | closed (h : Nat)
  | output_enter (h : Nat)
  | output_leave (h : Nat)
  | parent (h : Nat)
deriving DecidableEq, Repr

/-- Callback `toplevel_manager_handle_toplevel`: `next_toplevel_id++` on a `uint32_t`. -/
def toplevel_manager_handle_toplevel (p : program_state) (handle : Nat) :
    program_state × List effect :=
  let t : toplevel :=
    { id := p.next_toplevel_id, title := none, app_id := none, handle := handle, window_state := 0 }
  ({ state := { p.state with toplevels := wl_list_insert p.state.toplevels t }
     next_toplevel_id := (p.next_toplevel_id + 1) % 2 ^ 32 },
   [effect.stdout ("NEW ID=".toList ++ fmt_u t.id ++ "\n".toList)])

/-- Callback `toplevel_handle_title`. -/
def toplevel_handle_title (t : toplevel) (title : CStr) : toplevel := { t with title := some title }

/-- Callback `toplevel_handle_app_id`. -/
def toplevel_handle_app_id (t : toplevel) (app_id : CStr) : toplevel := { t with app_id := some app_id }

/-- Callback `toplevel_handle_closed`: the `CLOSED` line, the removal from the
registry and the release of the handle. -/
def toplevel_handle_closed (state : client_state) (t : toplevel) : client_state × List effect :=
  ({ state with toplevels := state.toplevels.eraseP (fun x => x.handle == t.handle) },
   [effect.stdout ("CLOSED ID=".toList ++ fmt_u t.id ++ "\n".toList), effect.destroy t.handle])

/-- The listener data of handle `h`: the live toplevel created for it. -/
def listener_data (state : client_state) (h : Nat) : Option toplevel :=
  state.toplevels.find? (fun x => x.handle == h)

/-- Rewrite, in place, the first toplevel of the list whose handle is `h`. -/
def update_first (h : Nat) (f : toplevel → toplevel) : List toplevel → List toplevel
  | [] => []
  | t :: rest => if t.handle == h then f t :: rest else t :: update_first h f rest

/-- Apply a field-writing callback to the listener data of handle `h`, in place. -/
def update_toplevel (state : client_state) (h : Nat) (f : toplevel → toplevel) : client_state :=
  { state with toplevels := update_first h f state.toplevels }

/-- Dispatch of one compositor event to its listener. -/
def dispatch (p : program_state) (e : wl_event) : program_state × List effect :=
  match e with
  | wl_event.toplevel handle => toplevel_manager_handle_toplevel p handle
  | wl_event.finished => (p, [])
  | wl_event.title h title =>
    ({ p with state := update_toplevel p.state h (fun t => toplevel_handle_title t title) }, [])
  | wl_event.app_id h app_id =>
    ({ p with state := update_toplevel p.state h (fun t => toplevel_handle_app_id t app_id) }, [])
  | wl_event.state h s =>
    ({ p with state := update_toplevel p.state h (fun t => toplevel_handle_state t s) }, [])
  | wl_event.done h =>
    match listener_data p.state h with
    | some t => (p, toplevel_handle_done p.state t)
    | none => (p, [])
  | wl_event.closed h =>
    match listener_data p.state h with
    | some t => ({ p with state := (toplevel_handle_closed p.state t).1 }, (toplevel_handle_closed p.state t).2)
    | none => (p, [])
  | wl_event.output_enter _ => (p, [])
  | wl_event.output_leave _ => (p, [])
  | wl_event.parent _ => (p, [])

/-- What the daemon reacts to: a compositor event or a line of the control channel. -/
inductive input where
  | wl (e : wl_event)
  | command (line : CStr)
deriving DecidableEq, Repr

/-- One reaction of the daemon. -/
def step (fs : file_system) (p : program_state) (i : input) : program_state × List effect :=
  match i with
  | input.wl e => dispatch p e
  | input.command line =>
    ({ p with state := (handle_command fs p.state line).1 }, (handle_command fs p.state line).2)

/-- The daemon's reactions to a sequence of inputs, effects in order. -/
def run (fs : file_system) : program_state → List input → program_state × List effect
  | p, [] => (p, [])
  | p, i :: rest =>
    ((run fs (step fs p i).1 rest).1, (step fs p i).2 ++ (run fs (step fs p i).1 rest).2)

/-- The state `main` starts from: empty lists, no seat, counter 0. -/
def initial_state : program_state :=
  { state := { wl_seat := none, toplevels := [], desktop_apps := [] }, next_toplevel_id := 0 }

/-- The id given to the toplevel that input `i` announces in state `p`, if it announces one. -/
def assigned_id (p : program_state) (i : input) : Option Nat :=
  match i with
  | input.wl (wl_event.toplevel handle) =>
    ((toplevel_manager_handle_toplevel p handle).1.state.toplevels.head?).map (fun t => t.id)
  | _ => none

/-- The ids given to the toplevels announced along a sequence of inputs, in announcement order. -/
def assigned_ids (fs : file_system) : program_state → List input → List Nat
  | _, [] => []
  | p, i :: rest => (assigned_id p i).toList ++ assigned_ids fs (step fs p i).1 rest

/-- Every `closed` event of the sequence refers to a toplevel that is live when it arrives. -/
def closed_refer_to_live (fs : file_system) : program_state → List input → Bool
  | _, [] => true
  | p, i :: rest =>
    (match i with
      | input.wl (wl_event.closed h) => (listener_data p.state h).isSome
      | _ => true)
    && closed_refer_to_live fs (step fs p i).1 rest

/-- Number of new-window announcements in a sequence of inputs. -/
def count_new (is : List input) : Nat :=
  (is.filter (fun i => match i with | input.wl (wl_event.toplevel _) => true | _ => false)).length

/-- Number of closed events in a sequence of inputs. -/
def count_closed (is : List input) : Nat :=
  (is.filter (fun i => match i with | input.wl (wl_event.closed _) => true | _ => false)).length

/-! ## The main loop -/

/-- What one `getline` on the control channel gives: the line, if any, and
whether `feof(stdin)` holds afterwards. -/
structure stdin_read where
  line : Option (List Char)
  feof : Bool
deriving DecidableEq, Repr

/-- The outcome of `poll`: a failure, or for each of the two descriptors whether
it is readable and what is then read from it. -/
inductive poll_result where
  | failed
  | ready (wl : Option (List wl_event)) (stdin : Option stdin_read)
deriving DecidableEq, Repr

/-- One round of the `while (1)` loop: the events dispatched while preparing
the read, then the outcome of `poll`. -/
structure loop_round where
  pending : List wl_event
  poll : poll_result
deriving DecidableEq, Repr

/-- Dispatch a batch of compositor events. -/
def dispatch_all (p : program_state) : List wl_event → program_state × List effect
  | [] => (p, [])
  | e :: rest =>
    ((dispatch_all (dispatch p e).1 rest).1, (dispatch p e).2 ++ (dispatch_all (dispatch p e).1 rest).2)

/-- The `while (1)` loop of `main` over the rounds the environment supplies;
`none` when the rounds end with the loop still waiting in `poll`. -/
def main_loop (fs : file_system) : program_state → List loop_round → Option (program_state × List effect)
  | _, [] => none
  | p, r :: rest =>
    let a := dispatch_all p r.pending
    match r.poll with
    | poll_result.failed => some a
    | poll_result.ready wl stdin =>
      let b := match wl with
        | some events => dispatch_all a.1 events
        | none => (a.1, [])
      match stdin with
      | none => (main_loop fs b.1 rest).map (fun c => (c.1, a.2 ++ b.2 ++ c.2))
      | some rd =>
        let c := match rd.line with
          | some line => handle_command fs b.1.state (c_str line)
          | none => (b.1.state, [])
        if rd.feof then some ({ b.1 with state := c.1 }, a.2 ++ b.2 ++ c.2)
        else (main_loop fs { b.1 with state := c.1 } rest).map (fun d => (d.1, a.2 ++ b.2 ++ c.2 ++ d.2))

/-- The code of `main` after the loop: the catalog is emptied, the display
disconnected, and the exit status is 0. -/
def main_shutdown (p : program_state) : program_state × List effect × Int :=
  ({ p with state := { p.state with desktop_apps := [] } }, [effect.display_disconnect], 0)

/-- What the compositor connection delivers: the globals announced during the
first roundtrip (name and interface), the events dispatched during the second
one, and the rounds of the main loop. -/
structure wl_display where
  globals : List (Nat × CStr)
  roundtrip_events : List wl_event
  rounds : List loop_round
deriving DecidableEq, Repr

/-- Callback `registry_handle_global`; the proxy bound for a seat is named by the
global. The interface names are those of the protocol headers. -/
def registry_handle_global (state : client_state) (name : Nat) (interface : CStr) : client_state :=
  if strcmp_eq interface "zwlr_foreign_toplevel_manager_v1".toList then state
  else if strcmp_eq interface "wl_seat".toList then { state with wl_seat := some name }
  else state

/-- Function `main`: all effects in order and the exit status; `none` when the
loop never ends. `display` is `none` when `wl_display_connect` fails. -/
def main (fs : file_system) (display : Option wl_display) : Option (List effect × Int) :=
  match display with
  | none => some ([effect.stderr "Failed to connect to Wayland display.\n".toList], 1)
  | some d =>
    let state := d.globals.foldl (fun st g => registry_handle_global st g.1 g.2) initial_state.state
    let a := dispatch_all { initial_state with state := state } d.roundtrip_events
    match main_loop fs a.1 d.rounds with
    | none => none
    | some r =>
      some (a.2 ++ [effect.stdout "DAEMON_READY\n".toList] ++ r.2 ++ (main_shutdown r.1).2.1,
        (main_shutdown r.1).2.2)

/-! ## Example inputs -/

/-- A catalog of two descriptors, as a scan leaves it. -/
def c2_catalog : List desktop_app :=
  [{ app_id := "org.gnome.Nautilus".toList, name := "Files".toList, generic_name := [], icon := [], bin := [], actions := [] },
   { app_id := "firefox".toList, name := "Firefox".toList, generic_name := [], icon := [], bin := [], actions := [] }]

/-- A daemon state holding that catalog. -/
def c2_state : client_state := { wl_seat := none, toplevels := [], desktop_apps := c2_catalog }

/-- A window whose reported identifier is in the catalog and whose title names another descriptor. -/
def c2_direct : toplevel :=
  { id := 4, title := some "Files".toList, app_id := some "firefox".toList, handle := 11, window_state := 0 }

/-- A window whose reported identifier is not in the catalog and whose title is a descriptor name. -/
def c2_by_title : toplevel :=
  { id := 5, title := some "Files".toList, app_id := some "nautilus".toList, handle := 12, window_state := 2 }

/-- A window without identifier whose title differs from a descriptor name in case only. -/
def c2_unmatched : toplevel :=
  { id := 6, title := some "files".toList, app_id := none, handle := 13, window_state := 0 }

/-- A daemon state with no seat, no toplevel and an empty catalog. -/
def empty_state : client_state := { wl_seat := none, toplevels := [], desktop_apps := [] }

/-- Two system descriptor files with the same `Name`, listed in this order. -/
def c3_fs : file_system :=
  { home := some none
    usr_share := some
      [{ d_name := "gnome-settings.desktop".toList, content := some "[Desktop Entry]\nName=Settings\nExec=gnome-control-center\n".toList },
       { d_name := "xfce-settings.desktop".toList, content := some "[Desktop Entry]\nName=Settings\nExec=xfce4-settings-manager\n".toList }]
    flatpak := none }

/-- A window titled like both descriptors, with an identifier that is no descriptor key. -/
def c3_window : toplevel :=
  { id := 0, title := some "Settings".toList, app_id := some "settings".toList, handle := 21, window_state := 0 }

/-- The identifier `foo` described in the user directory and, with other values, in the system directory. -/
def c4_fs : file_system :=
  { home := some (some
      [{ d_name := "foo.desktop".toList, content := some "[Desktop Entry]\nName=My Foo\nGenericName=My Tool\nIcon=my-foo\nExec=/home/u/bin/foo %U\nActions=Mine;\n[Desktop Action Mine]\nName=My Window\nExec=/home/u/bin/foo --new\n".toList }])
    usr_share := some
      [{ d_name := "foo.desktop".toList, content := some "[Desktop Entry]\nName=Foo\nGenericName=Tool\nIcon=foo\nExec=/usr/bin/foo %U\nActions=New;\n[Desktop Action New]\nName=New Window\nExec=/usr/bin/foo --new\n".toList }]
    flatpak := none }

/-- The `DB` line printed for a descriptor. -/
def db_line_of (d : desktop_app) : effect :=
  effect.stdout (db_line d.app_id d.name d.generic_name d.icon d.bin d.actions)

/-- A file system in which `HOME` is not set and no directory opens. -/
def no_files : file_system := { home := none, usr_share := none, flatpak := none }

/-- A registry state like the one after `NEW ID=3` and an update naming firefox, seat 9 bound. -/
def c6_state : client_state :=
  { wl_seat := some 9
    toplevels :=
      [{ id := 3, title := some "Mozilla Firefox".toList, app_id := some "firefox".toList, handle := 43, window_state := 2 },
       { id := 1, title := some "Terminal".toList, app_id := some "foot".toList, handle := 41, window_state := 0 }]
    desktop_apps := [] }

/-- A run of inputs that touches several kinds of events and a command. -/
def c8_inputs : List input :=
  [input.wl (wl_event.toplevel 41), input.wl (wl_event.title 41 "Terminal".toList),
   input.wl (wl_event.toplevel 42), input.command "MINIMIZEALL\n".toList,
   input.wl (wl_event.state 42 [2]), input.wl (wl_event.done 42),
   input.wl (wl_event.closed 41), input.command "QUERY\n".toList]

/-- Handle 7 announced and closed again `n` times. -/
def reopen : Nat → List input
  | 0 => []
  | n + 1 => input.wl (wl_event.toplevel 7) :: input.wl (wl_event.closed 7) :: reopen n

/-- Three descriptor files in the system directory. -/
def c10_fs : file_system :=
  { home := some none
    usr_share := some
      [{ d_name := "foot.desktop".toList, content := some "[Desktop Entry]\nName=Foot\nExec=foot\n".toList },
       { d_name := "firefox.desktop".toList, content := some "[Desktop Entry]\nName=Firefox\nExec=firefox %u\n".toList },
       { d_name := "mpv.desktop".toList, content := some "[Desktop Entry]\nName=mpv\nExec=mpv %U\n".toList }]
    flatpak := none }

/-- The rounds of a session: a `QUERY` line, then end of input on the control channel. -/
def c10_rounds_end_of_input : List loop_round :=
  [{ pending := [], poll := poll_result.ready none (some { line := some "QUERY\n".toList, feof := false }) },
   { pending := [], poll := poll_result.ready none (some { line := none, feof := true }) }]

/-- The rounds of a session: a `QUERY` line, then a failure of `poll`. -/
def c10_rounds_poll_fails : List loop_round :=
  [{ pending := [], poll := poll_result.ready none (some { line := some "QUERY\n".toList, feof := false }) },
   { pending := [], poll := poll_result.failed }]

/-- A compositor session with a seat and two windows announced during startup. -/
def c10_display (rounds : List loop_round) : wl_display :=
  { globals := [(1, "wl_compositor".toList), (7, "zwlr_foreign_toplevel_manager_v1".toList),
                (9, "wl_seat".toList)]
    roundtrip_events :=
      [wl_event.toplevel 41, wl_event.app_id 41 "foot".toList, wl_event.done 41,
       wl_event.toplevel 42, wl_event.app_id 42 "firefox".toList, wl_event.done 42]
    rounds := rounds }

/-- The daemon state after the startup of these sessions. -/
def c10_ready : program_state :=
  { state :=
      { wl_seat := some 9
        toplevels :=
          [{ id := 1, title := none, app_id := some "firefox".toList, handle := 42, window_state := 0 },
           { id := 0, title := none, app_id := some "foot".toList, handle := 41, window_state := 0 }]
        desktop_apps := [] }
    next_toplevel_id := 2 }

/-- The daemon state when the loop of these sessions ends: two open toplevels, three descriptors. -/
def c10_state : program_state :=
  { c10_ready with
    state :=
      { c10_ready.state with
        desktop_apps :=
          [{ app_id := "mpv".toList, name := "mpv".toList, generic_name := [], icon := [], bin := "mpv".toList, actions := [] },
           { app_id := "firefox".toList, name := "Firefox".toList, generic_name := [], icon := [], bin := "firefox".toList, actions := [] },
           { app_id := "foot".toList, name := "Foot".toList, generic_name := [], icon := [], bin := "foot".toList, actions := [] }] } }

/-- What both sessions print and request, from start to exit. -/
def c10_effects : List effect :=
  [effect.stdout "NEW ID=0\n".toList,
   effect.stdout "UPDATE ID=0 APPID=\"foot\" STATE=\"Normal\" TITLE=\"\"\n".toList,
   effect.stdout "NEW ID=1\n".toList,
   effect.stdout "UPDATE ID=1 APPID=\"firefox\" STATE=\"Normal\" TITLE=\"\"\n".toList,
   effect.stdout "DAEMON_READY\n".toList,
   effect.stdout "DB APPID=\"foot\" NAME=\"Foot\" GENERIC_NAME=\"\" ICON=\"\" BIN=\"foot\" ACTIONS=\"\"\n".toList,
   effect.stdout "DB APPID=\"firefox\" NAME=\"Firefox\" GENERIC_NAME=\"\" ICON=\"\" BIN=\"firefox\" ACTIONS=\"\"\n".toList,
   effect.stdout "DB APPID=\"mpv\" NAME=\"mpv\" GENERIC_NAME=\"\" ICON=\"\" BIN=\"mpv\" ACTIONS=\"\"\n".toList,
   effect.stdout "QUERY_DONE\n".toList,
   effect.display_disconnect]

/-- The descriptor file of the round-trip scenario: main entry with name, icon,
command and one action, then the section of that action. -/
def descriptor_file (n ic c a an ae : CStr) : List Char :=
  "Name=".toList ++ n ++ "\nIcon=".toList ++ ic ++ "\nExec=".toList ++ c ++ " %U\nActions=".toList
    ++ a ++ ";\n[Desktop Action ".toList ++ a ++ "]\nName=".toList ++ an ++ "\nExec=".toList ++ ae
    ++ "\n".toList

/-- The directory lists no name that passes the descriptor test of the scan. -/
def no_descriptor (d : directory) : Prop :=
  ∀ entries, d = some entries → ∀ e ∈ entries, has_desktop_suffix e.d_name = false

/-- The directory lists the readable file `name` and, besides it, only names that
do not pass the descriptor test of the scan. -/
def only_descriptor (d : directory) (name : CStr) (content : List Char) : Prop :=
  ∃ before after, d = some (before ++ { d_name := name, content := some content } :: after)
    ∧ (∀ e ∈ before, has_desktop_suffix e.d_name = false)
    ∧ (∀ e ∈ after, has_desktop_suffix e.d_name = false)

/-- The lines of `descriptor_file`, as `getline` returns them. -/
def descriptor_lines (n ic c a an ae : CStr) : List CStr :=
  ["Name".toList ++ '=' :: n ++ ['\n'],
   "Icon".toList ++ '=' :: ic ++ ['\n'],
   "Exec".toList ++ '=' :: (c ++ " %U".toList) ++ ['\n'],
   "Actions=".toList ++ (a ++ [';']) ++ ['\n'],
   "[Desktop Action ".toList ++ a ++ "]".toList ++ ['\n'],
   "Name=".toList ++ an ++ ['\n'],
   "Exec=".toList ++ ae ++ ['\n']]

/-- A directory holding `foo.desktop` of the round-trip scenario, next to the entries `.` and `..`. -/
def c7_usr_share : directory :=
  some [{ d_name := ".".toList, content := none }, { d_name := "..".toList, content := none },
        { d_name := "foo.desktop".toList,
          content := some (descriptor_file "Foo".toList "foo-icon".toList "foo".toList "Open".toList
            "Open New".toList "foo --new".toList) }]

/-- The same scenario with an empty action name: `Actions=;` and the section `[Desktop Action ]`. -/
def c7_fs_empty_action : file_system :=
  { home := some (some [])
    usr_share := some
      [{ d_name := "foo.desktop".toList
         content := some (descriptor_file "Foo".toList "foo-icon".toList "foo".toList [] "Open New".toList
           "foo --new".toList) }]
    flatpak := none }

/-- The same scenario with an action name of 239 bytes, one more than fits the section header buffer. -/
def c7_fs_long_action : file_system :=
  { home := some (some [])
    usr_share := some
      [{ d_name := "foo.desktop".toList
         content := some (descriptor_file "Foo".toList "foo-icon".toList "foo".toList
           (List.replicate 239 'x') "Open New".toList "foo --new".toList) }]
    flatpak := none }

/-- The same scenario with an action name of 1000 bytes and an action command of 30 bytes,
more than fits the entry buffer. -/
def c7_fs_long_entry : file_system :=
  { home := some (some [])
    usr_share := some
      [{ d_name := "foo.desktop".toList
         content := some (descriptor_file "Foo".toList "foo-icon".toList "foo".toList "Open".toList
           (List.replicate 1000 'n') (List.replicate 30 'e')) }]
    flatpak := none }

/-- The same scenario with the empty identifier: the file is named `.desktop`. -/
def c7_fs_empty_id : file_system :=
  { home := some (some [])
    usr_share := some
      [{ d_name := ".desktop".toList
         content := some (descriptor_file "Foo".toList "foo-icon".toList "foo".toList "Open".toList
           "Open New".toList "foo --new".toList) }]
    flatpak := none }

/-- A descriptor whose command has an argument after the placeholder. -/
def c11_fs_argument_after : file_system :=
  { home := some none
    usr_share := some
      [{ d_name := "foo.desktop".toList
         content := some "[Desktop Entry]\nName=Foo\nExec=foo %U --bar\n".toList }]
    flatpak := none }

/-- A descriptor whose placeholder follows a tab. -/
def c11_fs_tab : file_system :=
  { home := some none
    usr_share := some
      [{ d_name := "foo.desktop".toList
         content := some "[Desktop Entry]\nName=Foo\nExec=foo\t%U\n".toList }]
    flatpak := none }

/-- A descriptor whose command ends in two placeholders after three spaces. -/
def c11_fs_trailing : file_system :=
  { home := some none
    usr_share := some
      [{ d_name := "foo.desktop".toList
         content := some "[Desktop Entry]\nName=Foo\nExec=foo   %f %U\n".toList }]
    flatpak := none }

/-- A descriptor whose command has no placeholder. -/
def c11_fs_plain : file_system :=
  { home := some none
    usr_share := some
      [{ d_name := "foo.desktop".toList
         content := some "[Desktop Entry]\nName=Foo\nExec=foo --new-window\n".toList }]
    flatpak := none }

/-- The round-trip scenario in the user directory, with `HOME=/home/%s`. -/
def c7_fs_percent_home : file_system :=
  { home := some c7_usr_share, usr_share := some [], flatpak := none, home_dir := "/home/%s".toList }

/-- The round-trip scenario in the user directory, with a `HOME` of 991 bytes:
the path of the directory fits the buffer, the path of the file does not. -/
def c7_fs_long_home : file_system :=
  { home := some c7_usr_share, usr_share := some [], flatpak := none
    home_dir := '/' :: List.replicate 990 'h' }

/-! # Theorems -/

/-! ## Window state -/

/-- C1: a state event carrying {maximized, activated} arrives as the array [0, 2];
the stored window_state is 2 and format_state_string renders it as
"Active Fullscreen", not "Maximized Active". The maximized flag alone is stored
as 0 and renders as "Normal", minimized alone renders as "Minimized Fullscreen",
and all four flags render as "Minimized Active Fullscreen"; the empty set
renders as "Normal". -/
theorem C1_maximized_activated_renders_active_fullscreen :
    toplevel_handle_state_value
        [ZWLR_FOREIGN_TOPLEVEL_HANDLE_V1_STATE_MAXIMIZED,
         ZWLR_FOREIGN_TOPLEVEL_HANDLE_V1_STATE_ACTIVATED] = 2
    ∧ format_state_string (toplevel_handle_state_value
        [ZWLR_FOREIGN_TOPLEVEL_HANDLE_V1_STATE_MAXIMIZED,
         ZWLR_FOREIGN_TOPLEVEL_HANDLE_V1_STATE_ACTIVATED]) 256 = "Active Fullscreen".toList
    ∧ format_state_string (toplevel_handle_state_value
        [ZWLR_FOREIGN_TOPLEVEL_HANDLE_V1_STATE_MAXIMIZED]) 256 = "Normal".toList
    ∧ format_state_string (toplevel_handle_state_value
        [ZWLR_FOREIGN_TOPLEVEL_HANDLE_V1_STATE_MINIMIZED]) 256 = "Minimized Fullscreen".toList
    ∧ format_state_string (toplevel_handle_state_value
        [ZWLR_FOREIGN_TOPLEVEL_HANDLE_V1_STATE_MAXIMIZED,
         ZWLR_FOREIGN_TOPLEVEL_HANDLE_V1_STATE_MINIMIZED,
         ZWLR_FOREIGN_TOPLEVEL_HANDLE_V1_STATE_ACTIVATED,
         ZWLR_FOREIGN_TOPLEVEL_HANDLE_V1_STATE_FULLSCREEN]) 256
        = "Minimized Active Fullscreen".toList
    ∧ format_state_string (toplevel_handle_state_value []) 256 = "Normal".toList := by
  refine ⟨by decide, by decide, by decide, by decide, by decide, by decide⟩

/-! ## Identity resolution -/

/-- On C strings `strcmp` returns 0 exactly on equal texts. -/
theorem strcmp_eq_iff (a b : CStr) : strcmp_eq a b = true ↔ a = b := by
  simp [strcmp_eq]

/-- Phase 1: a direct match keeps the reported identifier. -/
theorem final_app_id_direct (state : client_state) (t : toplevel) (r : CStr)
    (hr : t.app_id = some r) (hd : ∃ d ∈ state.desktop_apps, d.app_id = r) :
    final_app_id state t = some r := by
  obtain ⟨d, hmem, hid⟩ := hd
  have h : state.desktop_apps.any (fun app => strcmp_eq app.app_id r) = true :=
    List.any_eq_true.mpr ⟨d, hmem, (strcmp_eq_iff _ _).mpr hid⟩
  simp [final_app_id, hr, h]

/-- Without a direct match the result is decided by the title search. -/
theorem final_app_id_no_direct (state : client_state) (t : toplevel)
    (hno : ∀ r, t.app_id = some r → ∀ d ∈ state.desktop_apps, d.app_id ≠ r) :
    final_app_id state t =
      match t.title with
      | none => t.app_id
      | some title =>
        match state.desktop_apps.find? (fun app => !strcmp_eq app.name [] && strcmp_eq app.name title) with
        | some app => some app.app_id
        | none => t.app_id := by
  have h : (match t.app_id with
      | some reported => state.desktop_apps.any (fun app => strcmp_eq app.app_id reported)
      | none => false) = false := by
    cases hr : t.app_id with
    | none => rfl
    | some r =>
      simp only [List.any_eq_false]
      intro d hd hc
      exact hno r hr d hd ((strcmp_eq_iff _ _).mp hc)
  simp only [final_app_id, h]
  rfl

/-- C2: the identifier in the UPDATE line of toplevel_handle_done is the reported
identifier when it is present and is the appId of some descriptor, whatever the
title; otherwise, when the title is present and some descriptor has a non-empty
displayName equal to it, the appId of such a descriptor; otherwise the reported
identifier as it is, empty text when absent. Nothing but exact equality of texts
enters the result. -/
theorem C2_done_reports_resolved_identifier (state : client_state) (t : toplevel) :
    (∀ r, t.app_id = some r → (∃ d ∈ state.desktop_apps, d.app_id = r) →
      toplevel_handle_done state t =
        [effect.stdout (update_line t.id r (format_state_string t.window_state 256) (t.title.getD []))])
    ∧ ((∀ r, t.app_id = some r → ∀ d ∈ state.desktop_apps, d.app_id ≠ r) →
      ∀ title, t.title = some title →
      (∃ d ∈ state.desktop_apps, d.name ≠ [] ∧ d.name = title) →
      ∃ d ∈ state.desktop_apps, d.name ≠ [] ∧ d.name = title ∧
        toplevel_handle_done state t =
          [effect.stdout (update_line t.id d.app_id (format_state_string t.window_state 256) title)])
    ∧ ((∀ r, t.app_id = some r → ∀ d ∈ state.desktop_apps, d.app_id ≠ r) →
      (∀ title, t.title = some title → ∀ d ∈ state.desktop_apps, ¬ (d.name ≠ [] ∧ d.name = title)) →
      toplevel_handle_done state t =
        [effect.stdout (update_line t.id (t.app_id.getD [])
          (format_state_string t.window_state 256) (t.title.getD []))]) := by
  refine ⟨?_, ?_, ?_⟩
  · intro r hr hd
    simp [toplevel_handle_done, final_app_id_direct state t r hr hd]
  · intro hno title ht hex
    have hf := final_app_id_no_direct state t hno
    rw [ht] at hf
    obtain ⟨d0, hd0, hn0, ht0⟩ := hex
    cases hfind : state.desktop_apps.find? (fun app => !strcmp_eq app.name [] && strcmp_eq app.name title) with
    | none =>
      exfalso
      have := List.find?_eq_none.mp hfind d0 hd0
      simp [strcmp_eq, hn0, ht0] at this
      exact hn0 (ht0.trans this)
    | some d =>
      have hp := List.find?_some hfind
      have hm := List.mem_of_find?_eq_some hfind
      simp [strcmp_eq] at hp
      refine ⟨d, hm, hp.1, hp.2, ?_⟩
      simp [hfind] at hf
      simp [toplevel_handle_done, hf, ht]
  · intro hno hnt
    have hf := final_app_id_no_direct state t hno
    cases ht : t.title with
    | none =>
      rw [ht] at hf
      simp [toplevel_handle_done, hf, ht]
    | some title =>
      rw [ht] at hf
      have hfind : state.desktop_apps.find? (fun app => !strcmp_eq app.name [] && strcmp_eq app.name title) = none := by
        apply List.find?_eq_none.mpr
        intro d hd
        have := hnt title ht d hd
        simp [strcmp_eq]
        intro h1 h2
        exact this ⟨h1, h2⟩
      simp [hfind] at hf
      simp [toplevel_handle_done, hf, ht]

/-- C2 at three windows: a direct match with a misleading title, a title match,
and a title that differs in case only. -/
theorem C2_done_reports_resolved_identifier_witness :
    toplevel_handle_done c2_state c2_direct =
        [effect.stdout "UPDATE ID=4 APPID=\"firefox\" STATE=\"Normal\" TITLE=\"Files\"\n".toList]
    ∧ (∃ d ∈ c2_state.desktop_apps, d.name ≠ [] ∧ d.name = "Files".toList ∧
        toplevel_handle_done c2_state c2_by_title =
          [effect.stdout (update_line c2_by_title.id d.app_id
            (format_state_string c2_by_title.window_state 256) "Files".toList)])
    ∧ toplevel_handle_done c2_state c2_unmatched =
        [effect.stdout "UPDATE ID=6 APPID=\"\" STATE=\"Normal\" TITLE=\"files\"\n".toList] :=
  ⟨(C2_done_reports_resolved_identifier c2_state c2_direct).1 "firefox".toList rfl
      ⟨c2_catalog.get ⟨1, by decide⟩, by decide, by decide⟩,
   (C2_done_reports_resolved_identifier c2_state c2_by_title).2.1 (by decide) "Files".toList rfl
      ⟨c2_catalog.get ⟨0, by decide⟩, by decide, by decide, by decide⟩,
   (C2_done_reports_resolved_identifier c2_state c2_unmatched).2.2 (by decide) (by decide)⟩

/-! ## Catalog scans -/

/-- C3, refuted at a scan of two descriptors named "Settings": gnome-settings is
inserted first (its DB line is printed first), xfce-settings second, and a
window titled "Settings" without direct match is reported as xfce-settings,
the descriptor inserted last, not as gnome-settings. -/
theorem C3_first_inserted_does_not_win :
    (query_desktop_files c3_fs empty_state).2 =
        [effect.stdout "DB APPID=\"gnome-settings\" NAME=\"Settings\" GENERIC_NAME=\"\" ICON=\"\" BIN=\"gnome-control-center\" ACTIONS=\"\"\n".toList,
         effect.stdout "DB APPID=\"xfce-settings\" NAME=\"Settings\" GENERIC_NAME=\"\" ICON=\"\" BIN=\"xfce4-settings-manager\" ACTIONS=\"\"\n".toList]
    ∧ (∀ d ∈ (query_desktop_files c3_fs empty_state).1.desktop_apps, some d.app_id ≠ c3_window.app_id)
    ∧ final_app_id (query_desktop_files c3_fs empty_state).1 c3_window ≠ some "gnome-settings".toList
    ∧ toplevel_handle_done (query_desktop_files c3_fs empty_state).1 c3_window =
        [effect.stdout "UPDATE ID=0 APPID=\"xfce-settings\" STATE=\"Normal\" TITLE=\"Settings\"\n".toList] := by
  refine ⟨by decide, by decide, by decide, by decide⟩

/-- C4, evaluated where `foo.desktop` exists in the user directory and in
/usr/share/applications: the scan adds one descriptor and prints one DB line,
and every value in it is the one of the system file, because the field lookup
tries /usr/share/applications first and the user directory last. -/
theorem C4_fields_come_from_system_file :
    query_desktop_files c4_fs empty_state =
      ({ wl_seat := none, toplevels := [],
         desktop_apps := [{ app_id := "foo".toList, name := "Foo".toList, generic_name := "Tool".toList,
                            icon := "foo".toList, bin := "/usr/bin/foo".toList,
                            actions := "New Window|/usr/bin/foo --new".toList }] },
       [effect.stdout "DB APPID=\"foo\" NAME=\"Foo\" GENERIC_NAME=\"Tool\" ICON=\"foo\" BIN=\"/usr/bin/foo\" ACTIONS=\"New Window|/usr/bin/foo --new\"\n".toList]) := by
  decide

/-- One directory entry adds at most one descriptor, in front of the catalog, and prints its line. -/
theorem query_entry_adds (fs : file_system) (st : scan_state) (name : CStr) :
    ∃ added : List desktop_app,
      (query_entry fs st name).desktop_apps = added.reverse ++ st.desktop_apps
      ∧ (query_entry fs st name).out = st.out ++ added.map db_line_of := by
  unfold query_entry
  simp only []
  split
  · split
    · exact ⟨[], by simp⟩
    · exact ⟨[_], rfl, rfl⟩
  · exact ⟨[], by simp⟩

/-- The entries of one directory add their descriptors in front of the catalog, last one first. -/
theorem query_names_adds (fs : file_system) (names : List CStr) (st : scan_state) :
    ∃ added : List desktop_app,
      (names.foldl (query_entry fs) st).desktop_apps = added.reverse ++ st.desktop_apps
      ∧ (names.foldl (query_entry fs) st).out = st.out ++ added.map db_line_of := by
  induction names generalizing st with
  | nil => exact ⟨[], by simp⟩
  | cons n rest ih =>
    obtain ⟨a1, h1, h2⟩ := query_entry_adds fs st n
    obtain ⟨a2, h3, h4⟩ := ih (query_entry fs st n)
    refine ⟨a1 ++ a2, ?_, ?_⟩
    · simp [List.foldl_cons, h3, h1]
    · simp [List.foldl_cons, h4, h2]

/-- The same over all directories of the scan. -/
theorem query_dirs_adds (fs : file_system) (dirs : List directory) (st : scan_state) :
    ∃ added : List desktop_app,
      (dirs.foldl (query_dir fs) st).desktop_apps = added.reverse ++ st.desktop_apps
      ∧ (dirs.foldl (query_dir fs) st).out = st.out ++ added.map db_line_of := by
  induction dirs generalizing st with
  | nil => exact ⟨[], by simp⟩
  | cons d rest ih =>
    have hd : ∃ a1 : List desktop_app,
        (query_dir fs st d).desktop_apps = a1.reverse ++ st.desktop_apps
        ∧ (query_dir fs st d).out = st.out ++ a1.map db_line_of := by
      cases d with
      | none => exact ⟨[], by simp [query_dir]⟩
      | some entries => exact query_names_adds fs _ st
    obtain ⟨a1, h1, h2⟩ := hd
    obtain ⟨a2, h3, h4⟩ := ih (query_dir fs st d)
    refine ⟨a1 ++ a2, ?_, ?_⟩
    · simp [List.foldl_cons, h3, h1]
    · simp [List.foldl_cons, h4, h2]

/-- A scan puts the descriptors it adds in front of the catalog, the one added
last first, and prints their `DB` lines in the order it adds them. -/
theorem query_desktop_files_adds (fs : file_system) (state : client_state) :
    ∃ added : List desktop_app,
      (query_desktop_files fs state).1.desktop_apps = added.reverse ++ state.desktop_apps
      ∧ (query_desktop_files fs state).2 = added.map db_line_of
      ∧ (query_desktop_files fs state).1.toplevels = state.toplevels
      ∧ (query_desktop_files fs state).1.wl_seat = state.wl_seat := by
  obtain ⟨added, h1, h2⟩ := query_dirs_adds fs (app_dirs fs)
    { processed_app_ids := [], desktop_apps := state.desktop_apps, out := [] }
  exact ⟨added, by simpa [query_desktop_files] using h1, by simpa [query_desktop_files] using h2, rfl, rfl⟩

/-- C3 as the code has it: a scan inserts the descriptors it adds in front of the
catalog and prints their DB lines in insertion order; when the reported
identifier has no direct match and descriptors added by the scan have a
non-empty displayName equal to the title, toplevel_handle_done resolves to the
one among them that was inserted last. -/
theorem C3_last_inserted_wins (fs : file_system) (state : client_state) (t : toplevel) (title : CStr)
    (hno : ∀ r, t.app_id = some r → ∀ d ∈ (query_desktop_files fs state).1.desktop_apps, d.app_id ≠ r)
    (ht : t.title = some title) :
    ∃ added : List desktop_app,
      (query_desktop_files fs state).1.desktop_apps = added.reverse ++ state.desktop_apps
      ∧ (query_desktop_files fs state).2 = added.map db_line_of
      ∧ ∀ pre d post, added = pre ++ d :: post → d.name ≠ [] → d.name = title →
          (∀ x ∈ post, x.name ≠ title) →
          final_app_id (query_desktop_files fs state).1 t = some d.app_id := by
  obtain ⟨added, h1, h2, -, -⟩ := query_desktop_files_adds fs state
  refine ⟨added, h1, h2, ?_⟩
  intro pre d post hadd hne hname hpost
  rw [final_app_id_no_direct _ t hno, ht]
  have hfind : (query_desktop_files fs state).1.desktop_apps.find?
      (fun app => !strcmp_eq app.name [] && strcmp_eq app.name title) = some d := by
    rw [h1, hadd]
    simp only [List.reverse_append, List.reverse_cons, List.append_assoc, List.singleton_append]
    rw [List.find?_append]
    have hnone : post.reverse.find? (fun app => !strcmp_eq app.name [] && strcmp_eq app.name title) = none := by
      apply List.find?_eq_none.mpr
      intro x hx
      have := hpost x (List.mem_reverse.mp hx)
      simp [strcmp_eq, this]
    rw [hnone]
    have hne2 : title ≠ [] := hname ▸ hne
    simp [strcmp_eq, hne2, hname]
  simp [hfind]

/-- C3 as the code has it, at the scan of the two "Settings" descriptors: the one inserted last wins. -/
theorem C3_last_inserted_wins_witness :
    final_app_id (query_desktop_files c3_fs empty_state).1 c3_window = some "xfce-settings".toList := by
  obtain ⟨added, h1, -, h3⟩ :=
    C3_last_inserted_wins c3_fs empty_state c3_window "Settings".toList (by decide) rfl
  have hcat : (query_desktop_files c3_fs empty_state).1.desktop_apps =
      [{ app_id := "xfce-settings".toList, name := "Settings".toList, generic_name := [], icon := [],
         bin := "xfce4-settings-manager".toList, actions := [] },
       { app_id := "gnome-settings".toList, name := "Settings".toList, generic_name := [], icon := [],
         bin := "gnome-control-center".toList, actions := [] }] := by decide
  have hadded : added =
      [{ app_id := "gnome-settings".toList, name := "Settings".toList, generic_name := [], icon := [],
         bin := "gnome-control-center".toList, actions := [] },
       { app_id := "xfce-settings".toList, name := "Settings".toList, generic_name := [], icon := [],
         bin := "xfce4-settings-manager".toList, actions := [] }] := by
    rw [hcat] at h1
    have h4 := congrArg List.reverse h1
    simp only [empty_state, List.append_nil, List.reverse_reverse] at h4
    rw [← h4]
    rfl
  exact h3 [_] _ [] hadded (by decide) (by decide) (by simp)

/-! ## Control commands -/

/-- `takeWhile` stops at the first element that fails the test. -/
theorem takeWhile_append_stop {α : Type} (p : α → Bool) (w : List α) (x : α) (rest : List α)
    (hw : ∀ y ∈ w, p y = true) (hx : p x = false) : (w ++ x :: rest).takeWhile p = w := by
  induction w with
  | nil => simp [List.takeWhile, hx]
  | cons a w ih =>
    have ha := hw a (List.mem_cons_self _ _)
    rw [List.cons_append, List.takeWhile_cons, ha, ih (fun y hy => hw y (List.mem_cons_of_mem _ hy))]
    rfl

/-- The characters of the ten digits are digits. -/
theorem digitChar_isDigit (k : Nat) (hk : k < 10) : (Nat.digitChar k).isDigit = true := by
  interval_cases k <;> decide

/-- The digit character of `k` stands 48 above `k`. -/
theorem digitChar_value (k : Nat) (hk : k < 10) : (Nat.digitChar k).toNat - 48 = k := by
  interval_cases k <;> decide

/-- Decimal conversion produces digits only. -/
theorem toDigitsCore_all_digits (fuel : Nat) : ∀ (n : Nat) (acc : List Char),
    (∀ c ∈ acc, c.isDigit = true) → ∀ c ∈ Nat.toDigitsCore 10 fuel n acc, c.isDigit = true := by
  induction fuel with
  | zero => intro n acc h; simpa [Nat.toDigitsCore] using h
  | succ f ih =>
    intro n acc h
    have hd : (Nat.digitChar (n % 10)).isDigit = true := digitChar_isDigit _ (Nat.mod_lt _ (by decide))
    have hacc : ∀ c ∈ Nat.digitChar (n % 10) :: acc, c.isDigit = true := by
      intro c hc
      rcases List.mem_cons.mp hc with rfl | hc
      · exact hd
      · exact h c hc
    simp only [Nat.toDigitsCore]
    split
    · exact hacc
    · exact ih _ _ hacc

/-- Reading the decimal conversion of `n` gives `n` back. -/
theorem toDigitsCore_value (fuel : Nat) : ∀ (n : Nat) (acc : List Char), n < fuel →
    (Nat.toDigitsCore 10 fuel n acc).foldl (fun a c => 10 * a + (c.toNat - 48)) 0
      = acc.foldl (fun a c => 10 * a + (c.toNat - 48)) n := by
  induction fuel with
  | zero => intro n acc h; omega
  | succ f ih =>
    intro n acc h
    have hv := digitChar_value (n % 10) (Nat.mod_lt _ (by decide))
    simp only [Nat.toDigitsCore]
    split
    · rename_i h0
      have hn : n % 10 = n := by omega
      rw [List.foldl_cons, Nat.mul_zero, Nat.zero_add, hv, hn]
    · rename_i h0
      rw [ih (n / 10) _ (by omega)]
      simp only [List.foldl_cons, hv]
      congr 1
      omega

/-- The text `%u` prints consists of decimal digits. -/
theorem fmt_u_all_digits (n : Nat) : ∀ c ∈ fmt_u n, c.isDigit = true :=
  toDigitsCore_all_digits _ _ _ (by simp)

/-- The digits `%u` prints have the printed number as value. -/
theorem digits_value_fmt_u (n : Nat) : digits_value (fmt_u n) = n := by
  have := toDigitsCore_value (n + 1) n [] (by omega)
  simpa [digits_value, fmt_u, Nat.toDigits] using this

/-- The text `%u` prints is never empty. -/
theorem fmt_u_ne_nil (n : Nat) : fmt_u n ≠ [] := by
  intro h
  have h1 := digits_value_fmt_u n
  rw [h] at h1
  cases n with
  | zero => exact absurd h (by decide)
  | succ k => simp [digits_value] at h1

/-- A digit is no white space. -/
theorem isDigit_not_isspace (c : Char) (h : c.isDigit = true) : isspace c = false := by
  cases hs : isspace c with
  | false => rfl
  | true =>
    simp only [isspace, Bool.or_eq_true, beq_iff_eq] at hs
    rcases hs with ((((hs | hs) | hs) | hs) | hs) | hs <;>
      (rw [hs] at h; exact absurd h (by decide))

/-- A digit is no command delimiter. -/
theorem isDigit_not_delim (c : Char) (h : c.isDigit = true) : " \n".toList.contains c = false := by
  cases hs : " \n".toList.contains c with
  | false => rfl
  | true =>
    simp only [String.toList, List.contains_cons, List.contains_nil, Bool.or_eq_true, beq_iff_eq,
      Bool.or_false] at hs
    rcases hs with hs | hs <;> (rw [hs] at h; exact absurd h (by decide))

/-- A digit is no sign. -/
theorem isDigit_not_sign (c : Char) (h : c.isDigit = true) : c ≠ '-' ∧ c ≠ '+' := by
  constructor <;> (intro hs; rw [hs] at h; exact absurd h (by decide))

/-- Bytes without delimiter are collected into the current token. -/
theorem strtok_aux_word (delim : CStr) (w : List Char) : ∀ (rest cur : List Char),
    (∀ c ∈ w, delim.contains c = false) →
    strtok_aux delim (w ++ rest) cur = strtok_aux delim rest (w.reverse ++ cur) := by
  induction w with
  | nil => intro rest cur _; rfl
  | cons a w ih =>
    intro rest cur h
    have ha : delim.contains a = false := h a (List.mem_cons_self _ _)
    have hw : ∀ c ∈ w, delim.contains c = false := fun c hc => h c (List.mem_cons_of_mem _ hc)
    rw [List.cons_append, strtok_aux]
    simp only [ha, Bool.false_eq_true, if_false]
    rw [ih rest (a :: cur) hw]
    simp

/-- A command word, one blank, one argument and an optional newline give the tokens word and argument. -/
theorem strtok_command_line (cmd arg : CStr) (eol : Bool)
    (hcmd : ∀ c ∈ cmd, " \n".toList.contains c = false) (hcmd0 : cmd ≠ [])
    (harg : ∀ c ∈ arg, " \n".toList.contains c = false) (harg0 : arg ≠ []) :
    strtok (cmd ++ ' ' :: (arg ++ (if eol then ['\n'] else []))) " \n".toList = [cmd, arg] := by
  unfold strtok
  rw [strtok_aux_word _ cmd _ _ hcmd]
  have h1 : (cmd.reverse ++ ([] : List Char)).isEmpty = false := by
    cases cmd with
    | nil => exact absurd rfl hcmd0
    | cons a w => simp
  rw [strtok_aux]
  simp only [h1]
  rw [strtok_aux_word _ arg _ _ harg]
  have h2 : ∃ a w, arg.reverse ++ ([] : List Char) = a :: w := by
    cases hr : arg.reverse with
    | nil => exact absurd (List.reverse_eq_nil_iff.mp hr) harg0
    | cons a w => exact ⟨a, w, by simp⟩
  obtain ⟨a, w, h2⟩ := h2
  rw [h2]
  have h3 : (a :: w).reverse = arg := by rw [← h2]; simp
  cases eol with
  | false => simp [strtok_aux, String.toList, h3]
  | true => simp [strtok_aux, String.toList, h3]

/-- A token without any decimal digit is read as 0 by `atoi`. -/
theorem atoi_no_digit (arg : CStr) (h : ∀ c ∈ arg, c.isDigit = false) : atoi arg = 0 := by
  have h1 : ∀ c ∈ arg.dropWhile isspace, c.isDigit = false :=
    fun c hc => h c ((List.dropWhile_sublist _).subset hc)
  have h2 : ∀ s : List Char, (∀ c ∈ s, c.isDigit = false) → s.takeWhile Char.isDigit = [] := by
    intro s hs
    cases s with
    | nil => rfl
    | cons a w => simp [List.takeWhile, hs a (List.mem_cons_self _ _)]
  have h3 : ∀ c ∈ (if (arg.dropWhile isspace).head? == some '-' || (arg.dropWhile isspace).head? == some '+'
      then (arg.dropWhile isspace).drop 1 else arg.dropWhile isspace), c.isDigit = false := by
    intro c hc
    split at hc
    · exact h1 c (List.mem_of_mem_drop hc)
    · exact h1 c hc
  simp only [atoi, h2 _ h3, digits_value, List.foldl_nil]
  split <;> decide

/-- The decimal text of a 32-bit id is read back by `atoi` and the conversion in the comparison. -/
theorem uint32_of_int_atoi_fmt_u (n : Nat) (hn : n < 2 ^ 32) : uint32_of_int (atoi (fmt_u n)) = n := by
  have hd := fmt_u_all_digits n
  have h0 := fmt_u_ne_nil n
  obtain ⟨a, w, haw⟩ : ∃ a w, fmt_u n = a :: w := by
    cases hf : fmt_u n with
    | nil => exact absurd hf h0
    | cons a w => exact ⟨a, w, rfl⟩
  have ha : a.isDigit = true := hd a (by rw [haw]; exact List.mem_cons_self _ _)
  have hdrop : (fmt_u n).dropWhile isspace = fmt_u n := by
    rw [haw]; simp [List.dropWhile, isDigit_not_isspace a ha]
  have hhead : (fmt_u n).head? = some a := by rw [haw]; rfl
  have htake : (fmt_u n).takeWhile Char.isDigit = fmt_u n := by
    rw [List.takeWhile_eq_self_iff]; exact hd
  have hs := isDigit_not_sign a ha
  have e1 : (a == '-') = false := by simp [hs.1]
  have e2 : (a == '+') = false := by simp [hs.2]
  simp only [atoi, hdrop, hhead, Option.some_beq_some, e1, e2, Bool.or_self, Bool.false_eq_true,
    if_false, htake, digits_value_fmt_u, uint32_of_int]
  have hn2 : (n : Int) < 4294967296 := by exact_mod_cast hn
  split_ifs <;> omega

/-- What `handle_command` does once the first token is one of the four id
commands and the second token is `arg`. -/
theorem handle_command_id_command (fs : file_system) (state : client_state)
    (command cmd arg : CStr) (more : List CStr)
    (htok : strtok command " \n".toList = cmd :: arg :: more)
    (hcmd : cmd = "ACTIVATE".toList ∨ cmd = "MINIMIZE".toList ∨ cmd = "UNMINIMIZE".toList
      ∨ cmd = "CLOSE".toList) :
    handle_command fs state command =
      match state.toplevels.find? (fun t => t.id == uint32_of_int (atoi arg)) with
      | none => (state, [])
      | some target =>
        if cmd = "ACTIVATE".toList then
          match state.wl_seat with
          | some seat => (state, [effect.activate target.handle seat])
          | none => (state, [])
        else if cmd = "MINIMIZE".toList then (state, [effect.set_minimized target.handle])
        else if cmd = "UNMINIMIZE".toList then (state, [effect.unset_minimized target.handle])
        else (state, [effect.close target.handle]) := by
  unfold handle_command
  rw [htok]
  rcases hcmd with h | h | h | h <;> subst h <;> simp only [strcmp_eq] <;>
    cases state.toplevels.find? (fun t => t.id == uint32_of_int (atoi arg)) <;> simp

/-- C6: with a seat bound and a decimal id n (ids are 32-bit), the line `ACTIVATE n`
issues exactly one activate request, against the handle of a live toplevel
with id n, when there is one (against the given toplevel when ids in the
registry are distinct), and no request and no output when there is none; the
state, registry and catalog included, is returned unchanged. -/
theorem C6_activate_by_id (fs : file_system) (state : client_state) (seat n : Nat) (eol : Bool)
    (hseat : state.wl_seat = some seat) (hn : n < 2 ^ 32) :
    ((∃ t ∈ state.toplevels, t.id = n) →
      ∃ t ∈ state.toplevels, t.id = n ∧
        handle_command fs state ("ACTIVATE ".toList ++ fmt_u n ++ (if eol then ['\n'] else []))
          = (state, [effect.activate t.handle seat]))
    ∧ (∀ t ∈ state.toplevels, t.id = n →
        state.toplevels.Pairwise (fun a b => a.id ≠ b.id) →
        handle_command fs state ("ACTIVATE ".toList ++ fmt_u n ++ (if eol then ['\n'] else []))
          = (state, [effect.activate t.handle seat]))
    ∧ ((∀ t ∈ state.toplevels, t.id ≠ n) →
        handle_command fs state ("ACTIVATE ".toList ++ fmt_u n ++ (if eol then ['\n'] else []))
          = (state, [])) := by
  have hline : "ACTIVATE ".toList ++ fmt_u n ++ (if eol then ['\n'] else [])
      = "ACTIVATE".toList ++ ' ' :: (fmt_u n ++ (if eol then ['\n'] else [])) := by
    simp [String.toList]
  have htok : strtok ("ACTIVATE ".toList ++ fmt_u n ++ (if eol then ['\n'] else [])) " \n".toList
      = ["ACTIVATE".toList, fmt_u n] := by
    rw [hline]
    exact strtok_command_line _ _ eol (by decide) (by decide)
      (fun c hc => isDigit_not_delim c (fmt_u_all_digits n c hc)) (fmt_u_ne_nil n)
  have hc := handle_command_id_command fs state _ _ _ _ htok (Or.inl rfl)
  rw [uint32_of_int_atoi_fmt_u n hn, hseat] at hc
  have hfound : ∀ target, state.toplevels.find? (fun t => t.id == n) = some target →
      handle_command fs state ("ACTIVATE ".toList ++ fmt_u n ++ (if eol then ['\n'] else []))
        = (state, [effect.activate target.handle seat]) := by
    intro target hf
    rw [hc, hf]
    simp
  refine ⟨?_, ?_, ?_⟩
  · rintro ⟨t, ht, hid⟩
    cases hf : state.toplevels.find? (fun t => t.id == n) with
    | none =>
      have := List.find?_eq_none.mp hf t ht
      simp [hid] at this
    | some target =>
      have hp := List.find?_some hf
      exact ⟨target, List.mem_of_find?_eq_some hf, by simpa using hp, hfound target hf⟩
  · intro t ht hid hpw
    cases hf : state.toplevels.find? (fun t => t.id == n) with
    | none =>
      have := List.find?_eq_none.mp hf t ht
      simp [hid] at this
    | some target =>
      have hp : target.id = n := by simpa using List.find?_some hf
      have hm := List.mem_of_find?_eq_some hf
      have heq : target = t := by
        by_contra hne
        have := hpw.forall (fun a b h => Ne.symm h) hm ht hne
        exact this (hp.trans hid.symm)
      rw [← heq]
      exact hfound target hf
  · intro hnone
    have hf : state.toplevels.find? (fun t => t.id == n) = none := by
      apply List.find?_eq_none.mpr
      intro t ht
      simpa using hnone t ht
    rw [hc, hf]

/-- C6 with toplevel 3 live: `ACTIVATE 3` activates its handle, `ACTIVATE 99` does nothing. -/
theorem C6_activate_by_id_witness :
    handle_command no_files c6_state "ACTIVATE 3\n".toList = (c6_state, [effect.activate 43 9])
    ∧ handle_command no_files c6_state "ACTIVATE 99\n".toList = (c6_state, []) :=
  ⟨(C6_activate_by_id no_files c6_state 9 3 true rfl (by decide)).2.1
      (c6_state.toplevels.get ⟨0, by decide⟩) (by decide) rfl (by decide),
   (C6_activate_by_id no_files c6_state 9 99 true rfl (by decide)).2.2 (by decide)⟩

/-- C6, refuted beyond 32 bits: with toplevels 3 and 1 live no toplevel has id
4294967299, yet `ACTIVATE 4294967299` issues an activate request against the
handle of toplevel 3, because atoi cuts the number to 32 bits. -/
theorem C6_id_beyond_32_bits_wraps :
    (∀ t ∈ c6_state.toplevels, t.id ≠ 4294967299)
    ∧ uint32_of_int (atoi "4294967299".toList) = 3
    ∧ handle_command no_files c6_state "ACTIVATE 4294967299\n".toList
        = (c6_state, [effect.activate 43 9]) := by
  refine ⟨by decide, by decide, by decide⟩

/-! ## The registry -/

/-- Rewriting one toplevel in place keeps the number of entries. -/
theorem update_first_length (h : Nat) (f : toplevel → toplevel) (l : List toplevel) :
    (update_first h f l).length = l.length := by
  induction l with
  | nil => rfl
  | cons t rest ih =>
    simp only [update_first]
    split <;> simp [ih]

/-- No control command touches the registry or the counter's owner: the toplevel list is returned as it was. -/
theorem handle_command_toplevels (fs : file_system) (state : client_state) (command : CStr) :
    (handle_command fs state command).1.toplevels = state.toplevels := by
  unfold handle_command
  simp only []
  repeat' split
  all_goals rfl

/-- The id counter after one input: one more, modulo 2^32, after an announcement, unchanged otherwise. -/
theorem step_next_toplevel_id (fs : file_system) (p : program_state) (i : input) :
    (step fs p i).1.next_toplevel_id =
      match i with
      | input.wl (wl_event.toplevel _) => (p.next_toplevel_id + 1) % 2 ^ 32
      | _ => p.next_toplevel_id := by
  cases i with
  | command line => rfl
  | wl e =>
    cases e <;> simp only [step, dispatch, toplevel_manager_handle_toplevel] <;> try rfl
    all_goals (split <;> rfl)

/-- The registry size after one input. -/
theorem step_length (fs : file_system) (p : program_state) (i : input) :
    (step fs p i).1.state.toplevels.length =
      match i with
      | input.wl (wl_event.toplevel _) => p.state.toplevels.length + 1
      | input.wl (wl_event.closed h) =>
        if (listener_data p.state h).isSome then p.state.toplevels.length - 1
        else p.state.toplevels.length
      | _ => p.state.toplevels.length := by
  cases i with
  | command line => simp [step, handle_command_toplevels]
  | wl e =>
    cases e with
    | toplevel handle => simp [step, dispatch, toplevel_manager_handle_toplevel, wl_list_insert]
    | finished => rfl
    | title h s => simp [step, dispatch, update_toplevel, update_first_length]
    | app_id h s => simp [step, dispatch, update_toplevel, update_first_length]
    | state h s => simp [step, dispatch, update_toplevel, update_first_length]
    | done h =>
      simp only [step, dispatch]
      split <;> rfl
    | closed h =>
      simp only [step, dispatch]
      cases hl : listener_data p.state h with
      | none => simp
      | some t =>
        have hh : t.handle = h := by
          have := List.find?_some hl
          simpa using this
        have hm : t ∈ p.state.toplevels := List.mem_of_find?_eq_some hl
        simp only [toplevel_handle_closed, Option.isSome_some, if_true]
        rw [List.length_eraseP_of_mem hm (by simp)]
    | output_enter h => rfl
    | output_leave h => rfl
    | parent h => rfl

/-- A live toplevel is found only in a registry that is not empty. -/
theorem listener_data_isSome_length (state : client_state) (h : Nat)
    (hl : (listener_data state h).isSome = true) : 0 < state.toplevels.length := by
  cases ht : state.toplevels with
  | nil => simp [listener_data, ht] at hl
  | cons t rest => simp

/-- Counting along a run from any state: entries plus closed events equal the entries at the start plus announcements. -/
theorem run_length (fs : file_system) (is : List input) : ∀ p : program_state,
    closed_refer_to_live fs p is = true →
    (run fs p is).1.state.toplevels.length + count_closed is = p.state.toplevels.length + count_new is := by
  induction is with
  | nil => intro p _; simp [run, count_closed, count_new]
  | cons i rest ih =>
    intro p hwf
    simp only [closed_refer_to_live, Bool.and_eq_true] at hwf
    have h1 := ih (step fs p i).1 hwf.2
    have h2 := step_length fs p i
    simp only [run]
    cases i with
    | command line =>
      simp only [] at h2
      simp only [count_closed, count_new, List.filter_cons] at h1 ⊢
      simp only [Bool.false_eq_true, if_false]
      omega
    | wl e =>
      cases e with
      | toplevel handle =>
        simp only [] at h2
        simp only [count_closed, count_new, List.filter_cons] at h1 ⊢
        simp only [Bool.false_eq_true, if_false, if_true, List.length_cons]
        omega
      | closed h =>
        have h3 := hwf.1
        simp only [] at h3
        have h4 := listener_data_isSome_length p.state h h3
        simp only [h3, if_true] at h2
        simp only [count_closed, count_new, List.filter_cons] at h1 ⊢
        simp only [Bool.false_eq_true, if_false, if_true, List.length_cons]
        omega
      | _ =>
        simp only [] at h2
        simp only [count_closed, count_new, List.filter_cons] at h1 ⊢
        simp only [Bool.false_eq_true, if_false]
        omega

/-- A prefix of a sequence whose closed events refer to live toplevels is such a sequence. -/
theorem closed_refer_to_live_take (fs : file_system) (is : List input) : ∀ (p : program_state) (k : Nat),
    closed_refer_to_live fs p is = true → closed_refer_to_live fs p (is.take k) = true := by
  induction is with
  | nil => intro p k h; simpa using h
  | cons i rest ih =>
    intro p k h
    cases k with
    | zero => rfl
    | succ k =>
      simp only [closed_refer_to_live, Bool.and_eq_true, List.take_succ_cons] at h ⊢
      exact ⟨h.1, ih _ k h.2⟩

/-- C8: along every sequence of inputs from the initial state in which each closed
event refers to a live toplevel, after every prefix the registry holds as many
entries as the prefix has announcements minus its closed events; and an input
that is neither an announcement nor a closed event (title, identifier, state,
done, the ignored events, every control command) leaves the number of entries
as it is, in every state. -/
theorem C8_registry_count (fs : file_system) (is : List input)
    (hwf : closed_refer_to_live fs initial_state is = true) :
    (∀ k, count_closed (is.take k) ≤ count_new (is.take k)
      ∧ (run fs initial_state (is.take k)).1.state.toplevels.length
          = count_new (is.take k) - count_closed (is.take k))
    ∧ (∀ (p : program_state) (i : input),
        (∀ h, i ≠ input.wl (wl_event.toplevel h)) → (∀ h, i ≠ input.wl (wl_event.closed h)) →
        (step fs p i).1.state.toplevels.length = p.state.toplevels.length) := by
  constructor
  · intro k
    have h := run_length fs (is.take k) initial_state (closed_refer_to_live_take fs is _ k hwf)
    have h0 : initial_state.state.toplevels.length = 0 := rfl
    rw [h0] at h
    constructor <;> omega
  · intro p i hnew hclosed
    have h := step_length fs p i
    cases i with
    | command line => exact h
    | wl e =>
      cases e with
      | toplevel handle => exact absurd rfl (hnew handle)
      | closed h0 => exact absurd rfl (hclosed h0)
      | _ => exact h

/-- C8 on a run with two announcements, one closure, updates and two commands: one entry is left. -/
theorem C8_registry_count_witness :
    (run no_files initial_state c8_inputs).1.state.toplevels.length = 2 - 1
    ∧ (step no_files (run no_files initial_state c8_inputs).1 (input.command "CLOSE 1\n".toList)).1.state.toplevels.length
        = (run no_files initial_state c8_inputs).1.state.toplevels.length :=
  ⟨((C8_registry_count no_files c8_inputs (by decide)).1 8).2,
   (C8_registry_count no_files c8_inputs (by decide)).2 _ _ (by intro h; simp) (by intro h; simp)⟩

/-- The id an announcement assigns is the value of the counter. -/
theorem assigned_id_toplevel (p : program_state) (handle : Nat) :
    assigned_id p (input.wl (wl_event.toplevel handle)) = some p.next_toplevel_id := rfl

/-- The ids assigned along a run are the successive values of the 32-bit counter. -/
theorem assigned_ids_eq (fs : file_system) (is : List input) : ∀ p : program_state,
    p.next_toplevel_id < 4294967296 →
    assigned_ids fs p is =
      (List.range (count_new is)).map (fun k => (p.next_toplevel_id + k) % 4294967296) := by
  induction is with
  | nil => intro p _; rfl
  | cons i rest ih =>
    intro p hp
    have hnext := step_next_toplevel_id fs p i
    cases i with
    | command line =>
      simp only [] at hnext
      have := ih (step fs p (input.command line)).1 (by rw [hnext]; exact hp)
      rw [hnext] at this
      simpa [assigned_ids, assigned_id, count_new] using this
    | wl e =>
      cases e with
      | toplevel handle =>
        simp only [] at hnext
        have hlt : (p.next_toplevel_id + 1) % 4294967296 < 4294967296 := Nat.mod_lt _ (by decide)
        have := ih (step fs p (input.wl (wl_event.toplevel handle))).1 (by rw [hnext]; exact hlt)
        rw [hnext] at this
        have hc : count_new (input.wl (wl_event.toplevel handle) :: rest) = count_new rest + 1 := by
          simp [count_new]
        rw [assigned_ids, assigned_id_toplevel, this, hc, List.range_succ_eq_map]
        simp only [Option.toList, List.map_cons, List.map_map, List.singleton_append, Nat.add_zero]
        congr 1
        · omega
        · apply List.map_congr_left
          intro k _
          simp only [Function.comp]
          omega
      | _ =>
        simp only [] at hnext
        have := ih (step fs p (input.wl _)).1 (by rw [hnext]; exact hp)
        rw [hnext] at this
        simpa [assigned_ids, assigned_id, count_new] using this

/-- C9 as the code has it: as long as at most 2^32 windows are announced, the ids
assigned are 0, 1, 2, ... in announcement order, strictly increasing, and no id
is given twice, whatever else happens in between. -/
theorem C9_ids_increase_below_wraparound (fs : file_system) (is : List input)
    (hcount : count_new is ≤ 2 ^ 32) :
    assigned_ids fs initial_state is = List.range (count_new is)
    ∧ (assigned_ids fs initial_state is).Pairwise (fun a b => a < b)
    ∧ (assigned_ids fs initial_state is).Nodup := by
  have h := assigned_ids_eq fs is initial_state (by decide)
  have h0 : initial_state.next_toplevel_id = 0 := rfl
  rw [h0] at h
  have h1 : assigned_ids fs initial_state is = List.range (count_new is) := by
    rw [h]
    conv_rhs => rw [← List.map_id (List.range (count_new is))]
    apply List.map_congr_left
    intro k hk
    have := List.mem_range.mp hk
    simp only [id]
    have h2 : (2 : Nat) ^ 32 = 4294967296 := by norm_num
    omega
  rw [h1]
  exact ⟨rfl, List.pairwise_lt_range _, List.nodup_range _⟩

/-- Announcing and closing handle 7 over and over keeps every closed event on a live toplevel. -/
theorem closed_refer_to_live_reopen (fs : file_system) (n : Nat) : ∀ p : program_state,
    closed_refer_to_live fs p (reopen n ++ [input.wl (wl_event.toplevel 7)]) = true := by
  induction n with
  | zero => intro p; rfl
  | succ n ih =>
    intro p
    simp only [reopen, List.cons_append, closed_refer_to_live, Bool.true_and, Bool.and_eq_true]
    refine ⟨?_, ih _⟩
    simp [step, dispatch, toplevel_manager_handle_toplevel, listener_data, wl_list_insert]

/-- The number of announcements in the reopening run. -/
theorem count_new_reopen (n : Nat) (rest : List input) :
    count_new (reopen n ++ rest) = n + count_new rest := by
  induction n with
  | zero => simp [reopen]
  | succ n ih =>
    have : count_new (reopen (n + 1) ++ rest) = count_new (reopen n ++ rest) + 1 := by
      simp [reopen, count_new]
    rw [this, ih]
    omega

/-- C9, refuted: handle 7 is announced and closed 2^32 times and then announced
once more (every closed event on a live toplevel); the 32-bit counter has
wrapped, and the ids assigned are not pairwise distinct (the last window gets
id 0 like the first). -/
theorem C9_id_reused_after_wraparound :
    closed_refer_to_live no_files initial_state
        (reopen 4294967296 ++ [input.wl (wl_event.toplevel 7)]) = true
    ∧ ¬ (assigned_ids no_files initial_state
        (reopen 4294967296 ++ [input.wl (wl_event.toplevel 7)])).Nodup := by
  refine ⟨closed_refer_to_live_reopen _ _ _, ?_⟩
  intro hnd
  have h := assigned_ids_eq no_files (reopen 4294967296 ++ [input.wl (wl_event.toplevel 7)])
    initial_state (by decide)
  have h0 : initial_state.next_toplevel_id = 0 := rfl
  have hc : count_new (reopen 4294967296 ++ [input.wl (wl_event.toplevel 7)]) = 4294967297 := by
    rw [count_new_reopen]
    rfl
  rw [h0, hc] at h
  rw [h] at hnd
  have hinj := List.inj_on_of_nodup_map hnd
  have := @hinj 0 (List.mem_range.mpr (by norm_num)) 4294967296 (List.mem_range.mpr (by norm_num))
    (by norm_num)
  omega

/-- C9 below the wrap-around, on a run with two announcements: ids 0 and 1. -/
theorem C9_ids_increase_below_wraparound_witness :
    assigned_ids no_files initial_state c8_inputs = [0, 1]
    ∧ (assigned_ids no_files initial_state c8_inputs).Pairwise (fun a b => a < b)
    ∧ (assigned_ids no_files initial_state c8_inputs).Nodup :=
  C9_ids_increase_below_wraparound no_files c8_inputs (by decide)

/-! ## Shutdown -/

/-- C10, evaluated: whatever the state when the loop ends, the code after the loop
issues no destroy request, only the disconnect, and returns 0. In the session
with two open toplevels and three descriptors, ended by end of input or by a
failing poll, main exits with status 0 without a single destroy request, so the
handles 41 and 42 are never released. -/
theorem C10_shutdown_releases_no_handle :
    (∀ p : program_state,
      (main_shutdown p).2.1 = [effect.display_disconnect] ∧ (main_shutdown p).2.2 = 0)
    ∧ (main_loop c10_fs c10_ready c10_rounds_end_of_input).map (fun r => r.1) = some c10_state
    ∧ (main_loop c10_fs c10_ready c10_rounds_poll_fails).map (fun r => r.1) = some c10_state
    ∧ main c10_fs (some (c10_display c10_rounds_end_of_input)) = some (c10_effects, 0)
    ∧ main c10_fs (some (c10_display c10_rounds_poll_fails)) = some (c10_effects, 0)
    ∧ effect.destroy 41 ∉ c10_effects ∧ effect.destroy 42 ∉ c10_effects := by
  refine ⟨fun p => ⟨rfl, rfl⟩, by decide, by decide, by decide, by decide, by decide, by decide⟩

/-! ## The round trip of a descriptor file -/

/-- A text without NUL is its own C string. -/
theorem c_str_of_no_nul (s : List Char) (h : Char.ofNat 0 ∉ s) : c_str s = s := by
  unfold c_str
  rw [List.takeWhile_eq_self_iff]
  intro c hc
  simp only [bne_iff_ne, ne_eq]
  intro h0
  exact h (h0 ▸ hc)

/-- A line without newline before its end is cut to the text before the newline. -/
theorem cut_at_newline_line (v : CStr) (rest : List Char) (h : '\n' ∉ v) :
    cut_at_newline (v ++ '\n' :: rest) = v := by
  unfold cut_at_newline
  apply takeWhile_append_stop
  · intro y hy
    simp only [bne_iff_ne, ne_eq]
    intro h0
    exact h (h0 ▸ hy)
  · rfl

/-- `getline` returns the text up to and including the first newline. -/
theorem getlines_aux_line (w : List Char) : ∀ (rest cur : List Char), '\n' ∉ w →
    getlines_aux (w ++ '\n' :: rest) cur = c_str (cur.reverse ++ w ++ ['\n']) :: getlines_aux rest [] := by
  induction w with
  | nil =>
    intro rest cur _
    simp [getlines_aux]
  | cons a w ih =>
    intro rest cur h
    have ha : a ≠ '\n' := fun h0 => h (h0 ▸ List.mem_cons_self _ _)
    have hw : '\n' ∉ w := fun h0 => h (List.mem_cons_of_mem _ h0)
    rw [List.cons_append, getlines_aux]
    simp only [ha, if_false]
    rw [ih rest (a :: cur) hw]
    simp

/-- The first line of a file that starts with a newline-free text and a newline. -/
theorem getlines_line (w rest : List Char) (hnl : '\n' ∉ w) (hnul : Char.ofNat 0 ∉ w) :
    getlines (w ++ '\n' :: rest) = (w ++ ['\n']) :: getlines rest := by
  unfold getlines
  rw [getlines_aux_line w rest [] hnl]
  rw [c_str_of_no_nul]
  · simp
  · intro h
    simp only [List.reverse_nil, List.nil_append, List.mem_append, List.mem_singleton] at h
    rcases h with h | h
    · exact hnul h
    · exact absurd h (by decide)

/-- A line `field=value` gives the value of `field`, trimmed when the field is `Exec`. -/
theorem field_value_hit (f v : CStr) (h : '\n' ∉ v) :
    field_value f (f ++ '=' :: v ++ ['\n']) =
      some (if strcmp_eq f "Exec".toList then exec_trim v else v) := by
  unfold field_value
  have h1 : strncmp_eq (f ++ '=' :: v ++ ['\n']) f f.length = true := by
    simp [strncmp_eq, List.append_assoc]
  have h2 : (f ++ '=' :: v ++ ['\n']).get? f.length = some '=' := by
    rw [List.append_assoc, List.get?_eq_getElem?, List.getElem?_append_right (le_refl _)]
    simp
  have h3 : (f ++ '=' :: v ++ ['\n']).drop (f.length + 1) = v ++ ['\n'] := by
    simp [List.append_assoc, List.drop_append]
  rw [h1, h2, h3]
  simp only [Bool.and_self, if_true, beq_self_eq_true]
  rw [cut_at_newline_line v [] h]

/-- A line whose first byte is not the first byte of the field name is not a line of that field. -/
theorem field_value_miss (f line : CStr) (x y : Char) (rf rl : List Char)
    (hf : f = x :: rf) (hl : line = y :: rl) (hxy : x ≠ y) : field_value f line = none := by
  subst hf hl
  unfold field_value
  have h1 : strncmp_eq (y :: rl) (x :: rf) (x :: rf).length = false := by
    simp [strncmp_eq, List.take, Ne.symm hxy]
  rw [h1]
  simp

/-- Reading `descriptor_file` line by line. -/
theorem getlines_descriptor_file (n ic c a an ae : CStr)
    (hnl : ∀ s ∈ [n, ic, c, a, an, ae], '\n' ∉ s)
    (hnul : ∀ s ∈ [n, ic, c, a, an, ae], Char.ofNat 0 ∉ s) :
    getlines (descriptor_file n ic c a an ae) = descriptor_lines n ic c a an ae := by
  simp only [List.mem_cons, List.mem_singleton, forall_eq_or_imp, forall_eq, List.not_mem_nil,
    false_implies, implies_true, and_true] at hnl hnul
  obtain ⟨hn, hic, hc, ha, han, hae⟩ := hnl
  obtain ⟨zn, zic, zc, za, zan, zae⟩ := hnul
  have e : descriptor_file n ic c a an ae =
      ("Name=".toList ++ n) ++ '\n' :: (("Icon=".toList ++ ic) ++ '\n' ::
      (("Exec=".toList ++ c ++ " %U".toList) ++ '\n' :: (("Actions=".toList ++ a ++ ";".toList) ++ '\n' ::
      (("[Desktop Action ".toList ++ a ++ "]".toList) ++ '\n' :: (("Name=".toList ++ an) ++ '\n' ::
      (("Exec=".toList ++ ae) ++ '\n' :: [])))))) := by
    simp [descriptor_file, String.toList, List.append_assoc]
  rw [e]
  rw [getlines_line _ _ (by simp [String.toList, hn]) (by simp [String.toList, zn]),
    getlines_line _ _ (by simp [String.toList, hic]) (by simp [String.toList, zic]),
    getlines_line _ _ (by simp [String.toList, hc]) (by simp [String.toList, zc]),
    getlines_line _ _ (by simp [String.toList, ha]) (by simp [String.toList, za]),
    getlines_line _ _ (by simp [String.toList, ha]) (by simp [String.toList, za]),
    getlines_line _ _ (by simp [String.toList, han]) (by simp [String.toList, zan]),
    getlines_line _ _ (by simp [String.toList, hae]) (by simp [String.toList, zae])]
  simp [descriptor_lines, getlines, getlines_aux, String.toList, List.append_assoc]

/-- The `Exec` value `c %U` is trimmed to `c`. -/
theorem exec_trim_placeholder (c : CStr) (hpct : '%' ∉ c) (hsp : c.getLast? ≠ some ' ') :
    exec_trim (c ++ " %U".toList) = c := by
  have e : c ++ " %U".toList = (c ++ [' ']) ++ '%' :: ['U'] := by simp [String.toList]
  have h1 : (c ++ " %U".toList).contains '%' = true := by simp [String.toList]
  have h2 : (c ++ " %U".toList).takeWhile (fun x => x != '%') = c ++ [' '] := by
    rw [e]
    apply takeWhile_append_stop
    · intro y hy
      simp only [bne_iff_ne, ne_eq]
      intro h0
      subst h0
      rcases List.mem_append.mp hy with h | h
      · exact hpct h
      · exact absurd h (by decide)
    · rfl
  unfold exec_trim
  rw [h1, if_pos rfl, h2, List.rdropWhile_concat]
  simp only [beq_self_eq_true, if_true]
  rw [List.rdropWhile_eq_self_iff]
  intro hne
  simp only [beq_iff_eq]
  intro hlast
  apply hsp
  rw [List.getLast?_eq_getLast _ hne, hlast]

/-- The four field lookups on the lines of the descriptor file. -/
theorem findSome_fields (n ic c a an ae : CStr)
    (hn : '\n' ∉ n) (hic : '\n' ∉ ic) (hc : '\n' ∉ c)
    (hpct : '%' ∉ c) (hsp : c.getLast? ≠ some ' ') :
    (descriptor_lines n ic c a an ae).findSome? (field_value "Name".toList) = some n
    ∧ (descriptor_lines n ic c a an ae).findSome? (field_value "GenericName".toList) = none
    ∧ (descriptor_lines n ic c a an ae).findSome? (field_value "Icon".toList) = some ic
    ∧ (descriptor_lines n ic c a an ae).findSome? (field_value "Exec".toList) = some c := by
  have hc2 : '\n' ∉ c ++ " %U".toList := by simp [String.toList, hc]
  have hitN := field_value_hit "Name".toList n hn
  have hitI := field_value_hit "Icon".toList ic hic
  have hitE := field_value_hit "Exec".toList (c ++ " %U".toList) hc2
  have eN : strcmp_eq "Name".toList "Exec".toList = false := by decide
  have eI : strcmp_eq "Icon".toList "Exec".toList = false := by decide
  have eE : strcmp_eq "Exec".toList "Exec".toList = true := by decide
  rw [eN] at hitN
  rw [eI] at hitI
  rw [eE, exec_trim_placeholder c hpct hsp] at hitE
  simp only [Bool.false_eq_true, if_false, if_true] at hitN hitI hitE
  refine ⟨?_, ?_, ?_, ?_⟩
  · simp only [descriptor_lines, List.findSome?, hitN]
  · have m1 := field_value_miss "GenericName".toList ("Name".toList ++ '=' :: n ++ ['\n']) 'G' 'N' _ _ rfl rfl (by decide)
    have m2 := field_value_miss "GenericName".toList ("Icon".toList ++ '=' :: ic ++ ['\n']) 'G' 'I' _ _ rfl rfl (by decide)
    have m3 := field_value_miss "GenericName".toList ("Exec".toList ++ '=' :: (c ++ " %U".toList) ++ ['\n']) 'G' 'E' _ _ rfl rfl (by decide)
    have m4 := field_value_miss "GenericName".toList ("Actions=".toList ++ (a ++ [';']) ++ ['\n']) 'G' 'A' _ _ rfl rfl (by decide)
    have m5 := field_value_miss "GenericName".toList ("[Desktop Action ".toList ++ a ++ "]".toList ++ ['\n']) 'G' '[' _ _ rfl rfl (by decide)
    have m6 := field_value_miss "GenericName".toList ("Name=".toList ++ an ++ ['\n']) 'G' 'N' _ _ rfl rfl (by decide)
    have m7 := field_value_miss "GenericName".toList ("Exec=".toList ++ ae ++ ['\n']) 'G' 'E' _ _ rfl rfl (by decide)
    simp only [descriptor_lines, List.findSome?, m1, m2, m3, m4, m5, m6, m7]
  · have m1 := field_value_miss "Icon".toList ("Name".toList ++ '=' :: n ++ ['\n']) 'I' 'N' _ _ rfl rfl (by decide)
    simp only [descriptor_lines, List.findSome?, m1, hitI]
  · have m1 := field_value_miss "Exec".toList ("Name".toList ++ '=' :: n ++ ['\n']) 'E' 'N' _ _ rfl rfl (by decide)
    have m2 := field_value_miss "Exec".toList ("Icon".toList ++ '=' :: ic ++ ['\n']) 'E' 'I' _ _ rfl rfl (by decide)
    simp only [descriptor_lines, List.findSome?, m1, m2, hitE]

/-- Texts with different first bytes differ under `strncmp` for every positive length. -/
theorem strncmp_eq_head_ne (x y : Char) (a b : List Char) (k : Nat) (h : x ≠ y) :
    strncmp_eq (x :: a) (y :: b) (k + 1) = false := by
  simp [strncmp_eq, List.take, h]

/-- Texts with different first bytes differ under `strcmp`. -/
theorem strcmp_eq_head_ne (x y : Char) (a b : List Char) (h : x ≠ y) :
    strcmp_eq (x :: a) (y :: b) = false := by
  simp [strcmp_eq, h]

/-- The `Actions=` lookup on the lines of the descriptor file. -/
theorem findSome_actions (n ic c a an ae : CStr) (ha : '\n' ∉ a) :
    (descriptor_lines n ic c a an ae).findSome? actions_line = some (a ++ [';']) := by
  have m1 : actions_line ("Name".toList ++ '=' :: n ++ ['\n']) = none := by
    unfold actions_line
    rw [show "Name".toList ++ '=' :: n ++ ['\n'] = 'N' :: ("ame".toList ++ '=' :: n ++ ['\n']) from rfl,
      show "Actions=".toList = 'A' :: "ctions=".toList from rfl, strncmp_eq_head_ne _ _ _ _ 7 (by decide)]
    rfl
  have m2 : actions_line ("Icon".toList ++ '=' :: ic ++ ['\n']) = none := by
    unfold actions_line
    rw [show "Icon".toList ++ '=' :: ic ++ ['\n'] = 'I' :: ("con".toList ++ '=' :: ic ++ ['\n']) from rfl,
      show "Actions=".toList = 'A' :: "ctions=".toList from rfl, strncmp_eq_head_ne _ _ _ _ 7 (by decide)]
    rfl
  have m3 : actions_line ("Exec".toList ++ '=' :: (c ++ " %U".toList) ++ ['\n']) = none := by
    unfold actions_line
    rw [show "Exec".toList ++ '=' :: (c ++ " %U".toList) ++ ['\n']
        = 'E' :: ("xec".toList ++ '=' :: (c ++ " %U".toList) ++ ['\n']) from rfl,
      show "Actions=".toList = 'A' :: "ctions=".toList from rfl, strncmp_eq_head_ne _ _ _ _ 7 (by decide)]
    rfl
  have m4 : actions_line ("Actions=".toList ++ (a ++ [';']) ++ ['\n']) = some (a ++ [';']) := by
    unfold actions_line
    have h1 : strncmp_eq ("Actions=".toList ++ (a ++ [';']) ++ ['\n']) "Actions=".toList 8 = true := by
      simp [strncmp_eq, String.toList]
    have h2 : ("Actions=".toList ++ (a ++ [';']) ++ ['\n']).drop 8 = (a ++ [';']) ++ ['\n'] := by
      simp [String.toList]
    rw [h1, h2, if_pos rfl, cut_at_newline_line _ [] (by simp [ha])]
  simp only [descriptor_lines, List.findSome?, m1, m2, m3, m4]

/-- The action list `a;` holds the one action id `a`. -/
theorem strtok_one_action (a : CStr) (ha : ';' ∉ a) (ha0 : a ≠ []) :
    strtok (a ++ [';']) ";".toList = [a] := by
  unfold strtok
  rw [strtok_aux_word _ a _ _ (by
    intro c hc
    simp only [String.toList, List.contains_cons, List.contains_nil, Bool.or_false, beq_eq_false_iff_ne]
    intro h0
    exact ha (h0 ▸ hc))]
  obtain ⟨x, w, hx⟩ : ∃ x w, a.reverse ++ ([] : List Char) = x :: w := by
    cases hr : a.reverse with
    | nil => exact absurd (List.reverse_eq_nil_iff.mp hr) ha0
    | cons x w => exact ⟨x, w, by simp⟩
  rw [hx]
  have h3 : (x :: w).reverse = a := by rw [← hx]; simp
  simp [strtok_aux, String.toList, h3]

/-- A line that starts with a byte that is no white space and ends with its
newline is trimmed to the text before the newline. -/
theorem trimmed_line_eq (x : Char) (w : List Char) (hx : isspace x = false) (hw : '\n' ∉ x :: w) :
    cut_at_newline (((x :: w) ++ ['\n']).dropWhile isspace) = x :: w := by
  have : ((x :: w) ++ ['\n']).dropWhile isspace = (x :: w) ++ ['\n'] := by
    simp [List.dropWhile, hx]
  rw [this]
  exact cut_at_newline_line _ [] hw

/-- The scan for the section of action `a` finds its name and its command. -/
theorem scan_descriptor_lines (n ic c a an ae : CStr)
    (hn : '\n' ∉ n) (hic : '\n' ∉ ic) (hc : '\n' ∉ c) (ha : '\n' ∉ a) (han : '\n' ∉ an)
    (hae : '\n' ∉ ae) :
    scan_action_section ("[Desktop Action ".toList ++ a ++ "]".toList)
      (descriptor_lines n ic c a an ae) false none none = (some an, some ae) := by
  have t1 : cut_at_newline (("Name".toList ++ '=' :: n ++ ['\n']).dropWhile isspace)
      = 'N' :: ("ame=".toList ++ n) :=
    trimmed_line_eq 'N' ("ame=".toList ++ n) (by decide) (by simp [String.toList, hn])
  have t2 : cut_at_newline (("Icon".toList ++ '=' :: ic ++ ['\n']).dropWhile isspace)
      = 'I' :: ("con=".toList ++ ic) :=
    trimmed_line_eq 'I' ("con=".toList ++ ic) (by decide) (by simp [String.toList, hic])
  have t3 : cut_at_newline (("Exec".toList ++ '=' :: (c ++ " %U".toList) ++ ['\n']).dropWhile isspace)
      = 'E' :: ("xec=".toList ++ (c ++ " %U".toList)) :=
    trimmed_line_eq 'E' ("xec=".toList ++ (c ++ " %U".toList)) (by decide)
      (by simp [String.toList, hc])
  have t4 : cut_at_newline (("Actions=".toList ++ (a ++ [';']) ++ ['\n']).dropWhile isspace)
      = 'A' :: ("ctions=".toList ++ (a ++ [';'])) :=
    trimmed_line_eq 'A' ("ctions=".toList ++ (a ++ [';'])) (by decide) (by simp [String.toList, ha])
  have t5 : cut_at_newline (("[Desktop Action ".toList ++ a ++ "]".toList ++ ['\n']).dropWhile isspace)
      = '[' :: ("Desktop Action ".toList ++ a ++ "]".toList) :=
    trimmed_line_eq '[' ("Desktop Action ".toList ++ a ++ "]".toList) (by decide)
      (by simp [String.toList, ha])
  have t6 : cut_at_newline (("Name=".toList ++ an ++ ['\n']).dropWhile isspace)
      = 'N' :: ("ame=".toList ++ an) :=
    trimmed_line_eq 'N' ("ame=".toList ++ an) (by decide) (by simp [String.toList, han])
  have t7 : cut_at_newline (("Exec=".toList ++ ae ++ ['\n']).dropWhile isspace)
      = 'E' :: ("xec=".toList ++ ae) :=
    trimmed_line_eq 'E' ("xec=".toList ++ ae) (by decide) (by simp [String.toList, hae])
  have hh : "[Desktop Action ".toList ++ a ++ "]".toList
      = '[' :: ("Desktop Action ".toList ++ a ++ "]".toList) := rfl
  have s6 : strncmp_eq ('N' :: ("ame=".toList ++ an)) "Name=".toList 5 = true := by
    simp [strncmp_eq, String.toList]
  have d6 : ('N' :: ("ame=".toList ++ an)).drop 5 = an := by simp [String.toList]
  have s7 : strncmp_eq ('E' :: ("xec=".toList ++ ae)) "Exec=".toList 5 = true := by
    simp [strncmp_eq, String.toList]
  have s7n : strncmp_eq ('E' :: ("xec=".toList ++ ae)) "Name=".toList 5 = false :=
    strncmp_eq_head_ne 'E' 'N' _ _ 4 (by decide)
  have d7 : ('E' :: ("xec=".toList ++ ae)).drop 5 = ae := by simp [String.toList]
  unfold descriptor_lines
  rw [hh]
  rw [hh] at t5
  rw [scan_action_section, t1, strcmp_eq_head_ne 'N' '[' _ _ (by decide)]
  simp only [Bool.false_eq_true, if_false, Bool.false_and, Option.isSome_none]
  rw [scan_action_section, t2, strcmp_eq_head_ne 'I' '[' _ _ (by decide)]
  simp only [Bool.false_eq_true, if_false, Bool.false_and, Option.isSome_none]
  rw [scan_action_section, t3, strcmp_eq_head_ne 'E' '[' _ _ (by decide)]
  simp only [Bool.false_eq_true, if_false, Bool.false_and, Option.isSome_none]
  rw [scan_action_section, t4, strcmp_eq_head_ne 'A' '[' _ _ (by decide)]
  simp only [Bool.false_eq_true, if_false, Bool.false_and, Option.isSome_none]
  rw [scan_action_section, t5]
  simp only [strcmp_eq, beq_self_eq_true, if_true]
  rw [scan_action_section, t6]
  simp only [strcmp_eq, s6, d6, List.head?_cons, Option.some_beq_some, Bool.true_and,
    Option.isNone_none, Option.isSome_some, Option.isSome_none, Bool.and_false, if_true,
    Bool.false_eq_true, if_false, Bool.and_true]
  rw [show (('N' :: ("ame=".toList ++ an)) == '[' :: ("Desktop Action ".toList ++ a ++ "]".toList)) = false
      from strcmp_eq_head_ne 'N' '[' _ _ (by decide)]
  rw [show ('N' == '[') = false from by decide]
  simp only [Bool.false_eq_true, if_false]
  rw [scan_action_section, t7]
  simp only [strcmp_eq, s7, s7n, d7, List.head?_cons, Option.some_beq_some, Bool.true_and,
    Option.isNone_none, Option.isSome_some, Option.isSome_none, Bool.and_false, if_true,
    Bool.false_eq_true, if_false, Bool.and_true, Bool.false_and]
  rw [show (('E' :: ("xec=".toList ++ ae)) == '[' :: ("Desktop Action ".toList ++ a ++ "]".toList)) = false
      from strcmp_eq_head_ne 'E' '[' _ _ (by decide)]
  rw [show ('E' == '[') = false from by decide]
  simp

/-- The action entry collected for action `a` of the descriptor file. -/
theorem add_action_descriptor_lines (n ic c a an ae : CStr)
    (hn : '\n' ∉ n) (hic : '\n' ∉ ic) (hc : '\n' ∉ c) (ha : '\n' ∉ a) (han : '\n' ∉ an)
    (hae : '\n' ∉ ae) (halen : a.length ≤ 238) (hentry : an.length + ae.length ≤ 1021) :
    add_action (descriptor_lines n ic c a an ae) [] a = (an ++ "|".toList ++ ae) ++ [';'] := by
  have h1 : snprintf 256 ("[Desktop Action ".toList ++ a ++ "]".toList)
      = "[Desktop Action ".toList ++ a ++ "]".toList := by
    unfold snprintf
    apply List.take_of_length_le
    simp [String.toList]
    omega
  have h2 : snprintf 1024 (an ++ "|".toList ++ ae ++ ";".toList) = an ++ "|".toList ++ ae ++ ";".toList := by
    unfold snprintf
    apply List.take_of_length_le
    simp [String.toList]
    omega
  have h3 : ([] : CStr).length + (an ++ "|".toList ++ ae ++ ";".toList).length < 4096 := by
    simp [String.toList]
    omega
  unfold add_action
  simp only [h1, scan_descriptor_lines n ic c a an ae hn hic hc ha han hae, h2, h3, if_true,
    List.nil_append]
  rfl

/-- A name `i.desktop` with non-empty `i` passes the descriptor test, and `i` is the identifier. -/
theorem has_desktop_suffix_of_id (i : CStr) (hi : i ≠ []) :
    has_desktop_suffix (i ++ ".desktop".toList) = true
    ∧ (i ++ ".desktop".toList).take ((i ++ ".desktop".toList).length - ".desktop".toList.length) = i := by
  have hl : 0 < i.length := List.length_pos.mpr hi
  have e : (i ++ ".desktop".toList).length - ".desktop".toList.length = i.length := by simp
  constructor
  · unfold has_desktop_suffix
    simp only [e, List.drop_left, strcmp_eq, beq_self_eq_true, Bool.and_true, decide_eq_true_eq]
    simp
    exact hl
  · rw [e, List.take_left]

/-- A directory without descriptor names does not hold the file of an identifier. -/
theorem fopen_no_descriptor (d : directory) (i : CStr) (hi : i ≠ []) (hd : no_descriptor d) :
    fopen d (i ++ ".desktop".toList) = none := by
  cases d with
  | none => rfl
  | some entries =>
    have hf : entries.find? (fun e => e.d_name == i ++ ".desktop".toList) = none := by
      apply List.find?_eq_none.mpr
      intro e he hname
      have h1 := hd entries rfl e he
      have h2 : e.d_name = i ++ ".desktop".toList := by simpa using hname
      rw [h2, (has_desktop_suffix_of_id i hi).1] at h1
      exact absurd h1 (by decide)
    simp only [fopen, hf]

/-- A directory whose one descriptor is the file of the identifier opens that file. -/
theorem fopen_only_descriptor (d : directory) (i : CStr) (content : List Char) (hi : i ≠ [])
    (hd : only_descriptor d (i ++ ".desktop".toList) content) :
    fopen d (i ++ ".desktop".toList) = some content := by
  obtain ⟨before, after, rfl, hb, -⟩ := hd
  have hf : (before ++ { d_name := i ++ ".desktop".toList, content := some content } :: after).find?
      (fun e => e.d_name == i ++ ".desktop".toList)
      = some { d_name := i ++ ".desktop".toList, content := some content } := by
    rw [List.find?_append]
    have hn : before.find? (fun e => e.d_name == i ++ ".desktop".toList) = none := by
      apply List.find?_eq_none.mpr
      intro e he hname
      have h1 := hb e he
      have h2 : e.d_name = i ++ ".desktop".toList := by simpa using hname
      rw [h2, (has_desktop_suffix_of_id i hi).1] at h1
      exact absurd h1 (by decide)
    rw [hn]
    simp
  simp only [fopen, hf]

/-- Names that fail the descriptor test leave the scan as it is. -/
theorem foldl_query_entry_skip (fs : file_system) (entries : List dir_entry)
    (h : ∀ e ∈ entries, has_desktop_suffix e.d_name = false) (st : scan_state) :
    (entries.map (fun e => e.d_name)).foldl (query_entry fs) st = st := by
  induction entries generalizing st with
  | nil => rfl
  | cons e rest ih =>
    have h1 := h e (List.mem_cons_self _ _)
    simp only [List.map_cons, List.foldl_cons]
    have h2 : query_entry fs st e.d_name = st := by
      unfold query_entry
      rw [h1]
      rfl
    rw [h2]
    exact ih (fun x hx => h x (List.mem_cons_of_mem _ hx)) st

/-- A directory without descriptor names leaves the scan as it is. -/
theorem query_dir_no_descriptor (fs : file_system) (st : scan_state) (d : directory)
    (hd : no_descriptor d) : query_dir fs st d = st := by
  cases d with
  | none => rfl
  | some entries => exact foldl_query_entry_skip fs entries (hd entries rfl) st

/-- A directory with one descriptor name contributes the scan of that name. -/
theorem query_dir_only_descriptor (fs : file_system) (st : scan_state) (d : directory)
    (name : CStr) (content : List Char) (hd : only_descriptor d name content) :
    query_dir fs st d = query_entry fs st name := by
  obtain ⟨before, after, rfl, hb, ha⟩ := hd
  simp only [query_dir, List.map_append, List.map_cons, List.foldl_append, List.foldl_cons]
  rw [foldl_query_entry_skip fs before hb, foldl_query_entry_skip fs after ha]

/-- The scan of the one descriptor name of the round trip. -/
theorem query_entry_descriptor_file (fs : file_system) (st : scan_state) (i n ic c a an ae : CStr)
    (hopen : open_desktop_file fs i = some (descriptor_file n ic c a an ae))
    (hproc : st.processed_app_ids = [])
    (hnl : ∀ s ∈ [n, ic, c, a, an, ae], '\n' ∉ s)
    (hnul : ∀ s ∈ [n, ic, c, a, an, ae], Char.ofNat 0 ∉ s)
    (hpct : '%' ∉ c) (hsp : c.getLast? ≠ some ' ') (hsemi : ';' ∉ a)
    (hi : i ≠ []) (ha0 : a ≠ []) (halen : a.length ≤ 238) (hentry : an.length + ae.length ≤ 1021) :
    query_entry fs st (i ++ ".desktop".toList) =
      { processed_app_ids := [i]
        desktop_apps := { app_id := i, name := n, generic_name := [], icon := ic, bin := c,
                          actions := an ++ "|".toList ++ ae } :: st.desktop_apps
        out := st.out ++ [effect.stdout (db_line i n [] ic c (an ++ "|".toList ++ ae))] } := by
  have hlines := getlines_descriptor_file n ic c a an ae hnl hnul
  simp only [List.mem_cons, List.mem_singleton, forall_eq_or_imp, forall_eq, List.not_mem_nil,
    false_implies, implies_true, and_true] at hnl
  obtain ⟨hn, hic, hc, ha, han, hae⟩ := hnl
  obtain ⟨f1, f2, f3, f4⟩ := findSome_fields n ic c a an ae hn hic hc hpct hsp
  have g1 : get_field_from_desktop_file fs i "Name".toList = some n := by
    simp only [get_field_from_desktop_file, hopen, hlines, f1]
  have g2 : get_field_from_desktop_file fs i "GenericName".toList = none := by
    simp only [get_field_from_desktop_file, hopen, hlines, f2]
  have g3 : get_field_from_desktop_file fs i "Icon".toList = some ic := by
    simp only [get_field_from_desktop_file, hopen, hlines, f3]
  have g4 : get_field_from_desktop_file fs i "Exec".toList = some c := by
    simp only [get_field_from_desktop_file, hopen, hlines, f4]
  have g5 : get_actions_from_desktop_file fs i = some (an ++ "|".toList ++ ae) := by
    have hne : (a ++ [';']).isEmpty = false := by cases a <;> rfl
    simp only [get_actions_from_desktop_file, hopen, hlines, findSome_actions n ic c a an ae ha,
      strtok_one_action a hsemi ha0, List.foldl_cons, List.foldl_nil, hne, Bool.false_eq_true, if_false,
      add_action_descriptor_lines n ic c a an ae hn hic hc ha han hae halen hentry]
    rw [List.dropLast_concat]
  obtain ⟨s1, s2⟩ := has_desktop_suffix_of_id i hi
  unfold query_entry
  rw [s1, if_pos rfl]
  simp only [s2, hproc, List.any_nil, Bool.false_eq_true, if_false, g1, g2, g3, g4, g5,
    Option.getD_some, Option.getD_none, wl_list_insert]

/-- A format without `%` is printed as it is. -/
theorem format_with_arg_no_percent (arg : CStr) (s : CStr) : ∀ (used : Bool) (out : List Char),
    '%' ∉ s → format_with_arg arg s used out = some (out.reverse ++ s) := by
  induction s with
  | nil => intro _ out _; simp [format_with_arg]
  | cons c r ih =>
    intro used out h
    have hc : (c == '%') = false := by
      simp only [beq_eq_false_iff_ne, ne_eq]
      intro h0
      exact h (h0 ▸ List.mem_cons_self _ _)
    rw [format_with_arg.eq_def]
    simp only [hc, Bool.false_eq_true, if_false]
    rw [ih used (c :: out) (fun h0 => h (List.mem_cons_of_mem _ h0))]
    simp

/-- The path tried for the user directory is the path of the file when `HOME`
and the identifier hold no `%` and the path fits the buffers. -/
theorem home_desktop_path_fits (hm i : CStr) (h1 : '%' ∉ hm) (h2 : '%' ∉ i)
    (hlen : hm.length + 27 + i.length + 8 ≤ 1023) :
    home_desktop_path hm i
      = some (hm ++ "/.local/share/applications/".toList ++ i ++ ".desktop".toList) := by
  have hfit : snprintf 1024 (hm ++ "/.local/share/applications/".toList ++ i ++ ".desktop".toList)
      = hm ++ "/.local/share/applications/".toList ++ i ++ ".desktop".toList := by
    unfold snprintf
    apply List.take_of_length_le
    simp [String.toList]
    omega
  have hp : '%' ∉ hm ++ "/.local/share/applications/".toList ++ i ++ ".desktop".toList := by
    simp [String.toList, h1, h2]
  unfold home_desktop_path
  simp only [hfit, format_with_arg_no_percent _ _ false [] hp, Option.map_some', List.reverse_nil,
    List.nil_append]

/-- Opening the path of a file of the user directory opens that file. -/
theorem fopen_home_file (hm : CStr) (dir : directory) (name : CStr) :
    fopen_home hm dir (hm ++ "/.local/share/applications/".toList ++ name) = fopen dir name := by
  unfold fopen_home
  have hpre : (hm ++ "/.local/share/applications/".toList).isPrefixOf
      (hm ++ "/.local/share/applications/".toList ++ name) = true := by
    rw [List.isPrefixOf_iff_prefix]
    exact List.prefix_append _ _
  simp only [hpre, if_true, List.drop_left]

/-- The name of a descriptor file whose identifier has at most 247 bytes fits behind both system directories. -/
theorem desktop_name_fits (i : CStr) (hi : i.length ≤ 247) :
    (i ++ ".desktop".toList).take (1023 - "/usr/share/applications/".toList.length)
        = i ++ ".desktop".toList
    ∧ (i ++ ".desktop".toList).take
        (1023 - "/var/lib/flatpak/exports/share/applications/".toList.length)
        = i ++ ".desktop".toList := by
  constructor <;>
  · apply List.take_of_length_le
    simp [String.toList]
    omega

/-- A directory that is skipped or holds no descriptor name leaves the scan as it is. -/
theorem query_dir_user_no_descriptor (fs : file_system) (st : scan_state) (hd : directory) (c : Prop)
    [Decidable c] (h : no_descriptor hd) : query_dir fs st (if c then hd else none) = st := by
  split
  · exact query_dir_no_descriptor fs st hd h
  · rfl

/-- C7 within the limits of the code: HOME is set; the identifier i is not empty
and has at most 247 bytes (a file name has at most 255), the action name a is
not empty and has at most 238 bytes, the action name and command together at
most 1021 bytes; the values are C text without NUL, newline or %, c does not
end in a space and a holds no semicolon. One of the three scan directories
lists the file i.desktop with the lines Name=n, Icon=ic, Exec=c %U, Actions=a;,
[Desktop Action a], Name=an, Exec=ae and no directory lists another descriptor
name; when it is the user directory, HOME holds no % and the path
HOME/.local/share/applications/i.desktop has at most 1023 bytes. Then the line
QUERY (with or without its newline) makes handle_command emit exactly the
line DB APPID="i" NAME="n" GENERIC_NAME="" ICON="ic" BIN="c" ACTIONS="an|ae"
and then QUERY_DONE. -/
theorem C7_query_round_trip (state : client_state) (hd ud fd : directory) (hm : CStr)
    (i n ic c a an ae : CStr)
    (hnl : ∀ s ∈ [n, ic, c, a, an, ae], '\n' ∉ s)
    (hnul : ∀ s ∈ [n, ic, c, a, an, ae], Char.ofNat 0 ∉ s)
    (hpct : ∀ s ∈ [i, n, ic, c, a, an, ae], '%' ∉ s)
    (hsp : c.getLast? ≠ some ' ') (hsemi : ';' ∉ a)
    (hi : i ≠ []) (hilen : i.length ≤ 247)
    (ha0 : a ≠ []) (halen : a.length ≤ 238) (hentry : an.length + ae.length ≤ 1021)
    (hplace :
      (only_descriptor hd (i ++ ".desktop".toList) (descriptor_file n ic c a an ae)
        ∧ no_descriptor ud ∧ no_descriptor fd
        ∧ '%' ∉ hm ∧ hm.length + 27 + i.length + 8 ≤ 1023)
      ∨ (no_descriptor hd
        ∧ only_descriptor ud (i ++ ".desktop".toList) (descriptor_file n ic c a an ae)
        ∧ no_descriptor fd)
      ∨ (no_descriptor hd ∧ no_descriptor ud
        ∧ only_descriptor fd (i ++ ".desktop".toList) (descriptor_file n ic c a an ae))) :
    ∀ eol : Bool,
    (handle_command { home := some hd, usr_share := ud, flatpak := fd, home_dir := hm } state
        ("QUERY".toList ++ (if eol then ['\n'] else []))).2 =
      [effect.stdout ("DB APPID=\"".toList ++ i ++ "\" NAME=\"".toList ++ n
          ++ "\" GENERIC_NAME=\"\" ICON=\"".toList ++ ic ++ "\" BIN=\"".toList ++ c
          ++ "\" ACTIONS=\"".toList ++ an ++ "|".toList ++ ae ++ "\"\n".toList),
       effect.stdout "QUERY_DONE\n".toList] := by
  intro eol
  have hc : '%' ∉ c := hpct c (by simp)
  have hip : '%' ∉ i := hpct i (by simp)
  obtain ⟨n1, n2⟩ := desktop_name_fits i hilen
  have hopen : open_desktop_file { home := some hd, usr_share := ud, flatpak := fd, home_dir := hm } i
      = some (descriptor_file n ic c a an ae) := by
    unfold open_desktop_file
    simp only [n1, n2]
    rcases hplace with ⟨h1, h2, h3, h4, h5⟩ | ⟨h1, h2, h3⟩ | ⟨h1, h2, h3⟩
    · simp only [fopen_no_descriptor ud i hi h2, fopen_no_descriptor fd i hi h3,
        home_desktop_path_fits hm i h4 hip h5]
      rw [List.append_assoc (hm ++ "/.local/share/applications/".toList), fopen_home_file]
      exact fopen_only_descriptor hd i _ hi h1
    · simp only [fopen_only_descriptor ud i _ hi h2]
    · simp only [fopen_no_descriptor ud i hi h2, fopen_only_descriptor fd i _ hi h3]
  have hscan : (app_dirs { home := some hd, usr_share := ud, flatpak := fd, home_dir := hm }).foldl
      (query_dir { home := some hd, usr_share := ud, flatpak := fd, home_dir := hm })
      { processed_app_ids := [], desktop_apps := state.desktop_apps, out := [] }
      = query_entry { home := some hd, usr_share := ud, flatpak := fd, home_dir := hm }
          { processed_app_ids := [], desktop_apps := state.desktop_apps, out := [] }
          (i ++ ".desktop".toList) := by
    simp only [app_dirs, List.foldl_cons, List.foldl_nil]
    rcases hplace with ⟨h1, h2, h3, h4, h5⟩ | ⟨h1, h2, h3⟩ | ⟨h1, h2, h3⟩
    · have hfit : (hm ++ "/.local/share/applications".toList).length ≤ 1023 := by
        simp [String.toList]
        omega
      rw [if_pos hfit, query_dir_only_descriptor _ _ hd _ _ h1, query_dir_no_descriptor _ _ ud h2,
        query_dir_no_descriptor _ _ fd h3]
    · rw [query_dir_user_no_descriptor _ _ hd _ h1, query_dir_only_descriptor _ _ ud _ _ h2,
        query_dir_no_descriptor _ _ fd h3]
    · rw [query_dir_user_no_descriptor _ _ hd _ h1, query_dir_no_descriptor _ _ ud h2,
        query_dir_only_descriptor _ _ fd _ _ h3]
  have hq := query_entry_descriptor_file
    { home := some hd, usr_share := ud, flatpak := fd, home_dir := hm }
    { processed_app_ids := [], desktop_apps := state.desktop_apps, out := [] }
    i n ic c a an ae hopen rfl hnl hnul hc hsp hsemi hi ha0 halen hentry
  have htok : strtok ("QUERY".toList ++ (if eol then ['\n'] else [])) " \n".toList
      = ["QUERY".toList] := by
    cases eol <;> decide
  unfold handle_command
  rw [htok]
  simp only [strcmp_eq, beq_self_eq_true, if_true, query_desktop_files, hscan, hq, List.nil_append,
    List.singleton_append, db_line]
  simp [String.toList, List.append_assoc]

/-- C7 at foo.desktop with Name=Foo, Icon=foo-icon, Exec=foo %U and the action Open,
once in the user directory of HOME=/home/user and once in /usr/share/applications. -/
theorem C7_query_round_trip_witness :
    (handle_command { home := some c7_usr_share, usr_share := some [], flatpak := none }
        empty_state "QUERY\n".toList).2 =
      [effect.stdout "DB APPID=\"foo\" NAME=\"Foo\" GENERIC_NAME=\"\" ICON=\"foo-icon\" BIN=\"foo\" ACTIONS=\"Open New|foo --new\"\n".toList,
       effect.stdout "QUERY_DONE\n".toList]
    ∧ (handle_command { home := some (some []), usr_share := c7_usr_share, flatpak := none }
        empty_state "QUERY\n".toList).2 =
      [effect.stdout "DB APPID=\"foo\" NAME=\"Foo\" GENERIC_NAME=\"\" ICON=\"foo-icon\" BIN=\"foo\" ACTIONS=\"Open New|foo --new\"\n".toList,
       effect.stdout "QUERY_DONE\n".toList] :=
  ⟨C7_query_round_trip empty_state c7_usr_share (some []) none "/home/user".toList
      "foo".toList "Foo".toList "foo-icon".toList "foo".toList "Open".toList "Open New".toList
      "foo --new".toList
      (by decide) (by decide) (by decide) (by decide) (by decide) (by decide) (by decide)
      (by decide) (by decide) (by decide)
      (Or.inl ⟨⟨[{ d_name := ".".toList, content := none }, { d_name := "..".toList, content := none }],
          [], rfl, by decide, by decide⟩,
        (by intro entries h e he; cases h; cases he), (by intro entries h; cases h),
        by decide, by decide⟩) true,
   C7_query_round_trip empty_state (some []) c7_usr_share none "/home/user".toList
      "foo".toList "Foo".toList "foo-icon".toList "foo".toList "Open".toList "Open New".toList
      "foo --new".toList
      (by decide) (by decide) (by decide) (by decide) (by decide) (by decide) (by decide)
      (by decide) (by decide) (by decide)
      (Or.inr (Or.inl ⟨(by intro entries h e he; cases h; cases he),
        ⟨[{ d_name := ".".toList, content := none }, { d_name := "..".toList, content := none }], [],
          rfl, by decide, by decide⟩,
        (by intro entries h; cases h)⟩)) true⟩

set_option maxRecDepth 100000 in
/-- C7, refuted at descriptor files of the stated shape. In /usr/share/applications
(HOME set): with the empty action name (`Actions=;`) and with an action name of
239 bytes the DB line has ACTIONS="" instead of "Open New|foo --new"; with an
action name of 1000 bytes and an action command of 30 bytes the entry is cut to
its buffer and ACTIONS ends after 21 bytes of the command; and the file
`.desktop` of the empty identifier gets no DB line at all. In the user
directory: with HOME=/home/%s the path is formatted a second time and becomes
/home/foo/..., and with a HOME of 991 bytes the path is cut to 1023 bytes; both
times the file is listed but not opened, and the DB line has empty fields. -/
theorem C7_round_trip_fails_outside_limits :
    (handle_command c7_fs_empty_action empty_state "QUERY\n".toList).2 =
      [effect.stdout "DB APPID=\"foo\" NAME=\"Foo\" GENERIC_NAME=\"\" ICON=\"foo-icon\" BIN=\"foo\" ACTIONS=\"\"\n".toList,
       effect.stdout "QUERY_DONE\n".toList]
    ∧ (handle_command c7_fs_long_action empty_state "QUERY\n".toList).2 =
      [effect.stdout "DB APPID=\"foo\" NAME=\"Foo\" GENERIC_NAME=\"\" ICON=\"foo-icon\" BIN=\"foo\" ACTIONS=\"\"\n".toList,
       effect.stdout "QUERY_DONE\n".toList]
    ∧ (handle_command c7_fs_long_entry empty_state "QUERY\n".toList).2 =
      [effect.stdout ("DB APPID=\"foo\" NAME=\"Foo\" GENERIC_NAME=\"\" ICON=\"foo-icon\" BIN=\"foo\" ACTIONS=\"".toList
          ++ List.replicate 1000 'n' ++ "|".toList ++ List.replicate 21 'e' ++ "\"\n".toList),
       effect.stdout "QUERY_DONE\n".toList]
    ∧ (handle_command c7_fs_empty_id empty_state "QUERY\n".toList).2 =
      [effect.stdout "QUERY_DONE\n".toList]
    ∧ (handle_command c7_fs_percent_home empty_state "QUERY\n".toList).2 =
      [effect.stdout "DB APPID=\"foo\" NAME=\"\" GENERIC_NAME=\"\" ICON=\"\" BIN=\"\" ACTIONS=\"\"\n".toList,
       effect.stdout "QUERY_DONE\n".toList]
    ∧ (handle_command c7_fs_long_home empty_state "QUERY\n".toList).2 =
      [effect.stdout "DB APPID=\"foo\" NAME=\"\" GENERIC_NAME=\"\" ICON=\"\" BIN=\"\" ACTIONS=\"\"\n".toList,
       effect.stdout "QUERY_DONE\n".toList] := by
  refine ⟨by decide, by decide, by decide, by decide, by decide, by decide⟩

/-! ## Trimming of the Exec value -/

/-- Lines for which the loop body finds nothing do not change the result of the search. -/
theorem findSome_append_of_none {α β : Type} (f : α → Option β) (pre l : List α)
    (h : ∀ x ∈ pre, f x = none) : (pre ++ l).findSome? f = l.findSome? f := by
  induction pre with
  | nil => rfl
  | cons a pre ih =>
    rw [List.cons_append, List.findSome?, h a (List.mem_cons_self _ _)]
    exact ih (fun x hx => h x (List.mem_cons_of_mem _ hx))

/-- Reading a file that starts with complete lines. -/
theorem getlines_header (header : List CStr) (rest : List Char)
    (h : ∀ l ∈ header, '\n' ∉ l ∧ Char.ofNat 0 ∉ l) :
    getlines ((header.map (fun l => l ++ ['\n'])).flatten ++ rest)
      = header.map (fun l => l ++ ['\n']) ++ getlines rest := by
  induction header with
  | nil => rfl
  | cons l header ih =>
    have hl := h l (List.mem_cons_self _ _)
    have e : ((l :: header).map (fun l => l ++ ['\n'])).flatten ++ rest
        = l ++ '\n' :: ((header.map (fun l => l ++ ['\n'])).flatten ++ rest) := by
      simp [List.append_assoc]
    rw [e, getlines_line l _ hl.1 hl.2, ih (fun x hx => h x (List.mem_cons_of_mem _ hx))]
    rfl

/-- A line that does not start with `Exec=` is no line of the field `Exec`. -/
theorem field_value_exec_none (l : CStr) (hnl : '\n' ∉ l) (h : ¬ "Exec=".toList <+: l) :
    field_value "Exec".toList (l ++ ['\n']) = none := by
  unfold field_value
  rw [if_neg]
  intro hc
  apply h
  rcases l with _ | ⟨a, _ | ⟨b, _ | ⟨c, _ | ⟨d, _ | ⟨e, t⟩⟩⟩⟩⟩ <;>
    simp [strncmp_eq, String.toList] at hc hnl ⊢
  exact ⟨hc.1.1.symm, hc.1.2.1.symm, hc.1.2.2.1.symm, hc.1.2.2.2.symm, hc.2.symm⟩

/-- Removing the spaces at the end of a text leaves a text that does not end
in a space, and only spaces were removed. -/
theorem rdropWhile_space (p : CStr) :
    ∃ k, p = p.rdropWhile (fun x => x == ' ') ++ List.replicate k ' '
      ∧ (p.rdropWhile (fun x => x == ' ')).getLast? ≠ some ' ' := by
  induction p using List.reverseRecOn with
  | nil => exact ⟨0, by simp, by simp⟩
  | append_singleton l x ih =>
    obtain ⟨k, h1, h2⟩ := ih
    rw [List.rdropWhile_concat]
    by_cases hx : x = ' '
    · subst hx
      refine ⟨k + 1, ?_, ?_⟩
      · simp only [beq_self_eq_true, if_true]
        rw [List.replicate_succ', ← List.append_assoc, ← h1]
      · simpa using h2
    · refine ⟨0, ?_, ?_⟩
      · simp [hx]
      · simp [hx]

/-- The value returned for `Exec` without a `%` is the value itself. -/
theorem exec_trim_no_percent (v : CStr) (h : '%' ∉ v) : exec_trim v = v := by
  unfold exec_trim
  rw [if_neg]
  simpa using h

/-- The value returned for `Exec` with a `%` is what stands before the first `%`, spaces at its end removed. -/
theorem exec_trim_first_percent (p q : CStr) (h : '%' ∉ p) :
    exec_trim (p ++ '%' :: q) = p.rdropWhile (fun x => x == ' ') := by
  unfold exec_trim
  rw [if_pos (by simp)]
  rw [takeWhile_append_stop (fun x => x != '%') p '%' q (by
    intro y hy
    simp only [bne_iff_ne, ne_eq]
    intro h0
    exact h (h0 ▸ hy)) rfl]

/-- What `get_field_from_desktop_file` returns for `Exec` when the first line that
starts with `Exec=` holds the value `v`. -/
theorem get_field_exec (fs : file_system) (app_id : CStr) (header : List CStr) (v : CStr)
    (rest : List Char)
    (hopen : open_desktop_file fs app_id
      = some ((header.map (fun l => l ++ ['\n'])).flatten ++ ("Exec=".toList ++ v ++ '\n' :: rest)))
    (hheader : ∀ l ∈ header, '\n' ∉ l ∧ Char.ofNat 0 ∉ l ∧ ¬ "Exec=".toList <+: l)
    (hv : '\n' ∉ v) (hz : Char.ofNat 0 ∉ v) :
    get_field_from_desktop_file fs app_id "Exec".toList = some (exec_trim v) := by
  unfold get_field_from_desktop_file
  rw [hopen]
  simp only []
  rw [getlines_header header _ (fun l hl => ⟨(hheader l hl).1, (hheader l hl).2.1⟩),
    getlines_line ("Exec=".toList ++ v) rest (by simp [String.toList, hv]) (by simp [String.toList, hz]),
    findSome_append_of_none]
  · have hit := field_value_hit "Exec".toList v hv
    have e : "Exec=".toList ++ v ++ ['\n'] = "Exec".toList ++ '=' :: v ++ ['\n'] := by
      simp [String.toList]
    rw [List.findSome?, e, hit]
    rfl
  · intro x hx
    obtain ⟨l, hl, rfl⟩ := List.mem_map.mp hx
    exact field_value_exec_none l (hheader l hl).1 (hheader l hl).2.2

/-- C11, refuted: for `Exec=foo %U --bar`, whose last token is no placeholder,
get_field_from_desktop_file returns "foo" and not the unchanged value, so the
argument after the placeholder is lost; for a placeholder after a tab the tab
is kept. -/
theorem C11_exec_loses_text_after_percent :
    get_field_from_desktop_file c11_fs_argument_after "foo".toList "Exec".toList = some "foo".toList
    ∧ get_field_from_desktop_file c11_fs_argument_after "foo".toList "Exec".toList
        ≠ some "foo %U --bar".toList
    ∧ get_field_from_desktop_file c11_fs_tab "foo".toList "Exec".toList = some "foo\t".toList := by
  refine ⟨by decide, by decide, by decide⟩

/-- C11 as the code has it: when the first line of the opened descriptor file
that starts with `Exec=` holds the raw value v (C text up to the newline), the
command returned for the field Exec is v itself when v holds no `%`, and
otherwise the text before the first `%` of v without the spaces at its end;
everything from the first `%` on is dropped, and only spaces are removed
before it. -/
theorem C11_exec_cut_at_first_percent (fs : file_system) (app_id : CStr) (header : List CStr)
    (v : CStr) (rest : List Char)
    (hopen : open_desktop_file fs app_id
      = some ((header.map (fun l => l ++ ['\n'])).flatten ++ ("Exec=".toList ++ v ++ '\n' :: rest)))
    (hheader : ∀ l ∈ header, '\n' ∉ l ∧ Char.ofNat 0 ∉ l ∧ ¬ "Exec=".toList <+: l)
    (hv : '\n' ∉ v) (hz : Char.ofNat 0 ∉ v) :
    ('%' ∉ v → get_field_from_desktop_file fs app_id "Exec".toList = some v)
    ∧ (∀ p q, v = p ++ '%' :: q → '%' ∉ p →
        ∃ r k, p = r ++ List.replicate k ' ' ∧ r.getLast? ≠ some ' '
          ∧ get_field_from_desktop_file fs app_id "Exec".toList = some r) := by
  have h := get_field_exec fs app_id header v rest hopen hheader hv hz
  constructor
  · intro hp
    rw [h, exec_trim_no_percent v hp]
  · intro p q hpq hp
    obtain ⟨k, h1, h2⟩ := rdropWhile_space p
    refine ⟨p.rdropWhile (fun x => x == ' '), k, h1, h2, ?_⟩
    rw [h, hpq, exec_trim_first_percent p q hp]

/-- C11 as the code has it, at `Exec=foo --new-window` and at `Exec=foo   %f %U`. -/
theorem C11_exec_cut_at_first_percent_witness :
    get_field_from_desktop_file c11_fs_plain "foo".toList "Exec".toList
        = some "foo --new-window".toList
    ∧ ∃ r k, "foo   ".toList = r ++ List.replicate k ' ' ∧ r.getLast? ≠ some ' '
        ∧ get_field_from_desktop_file c11_fs_trailing "foo".toList "Exec".toList = some r :=
  ⟨(C11_exec_cut_at_first_percent c11_fs_plain "foo".toList
      ["[Desktop Entry]".toList, "Name=Foo".toList] "foo --new-window".toList [] (by decide)
      (by decide) (by decide) (by decide)).1 (by decide),
   (C11_exec_cut_at_first_percent c11_fs_trailing "foo".toList
      ["[Desktop Entry]".toList, "Name=Foo".toList] "foo   %f %U".toList [] (by decide)
      (by decide) (by decide) (by decide)).2 "foo   ".toList "f %U".toList (by decide) (by decide)⟩

/-! ## Repeated scans -/

/-- What one directory entry does to the scan does not depend on the descriptors
already in the catalog: they stay behind the new ones. -/
theorem query_entry_catalog (fs : file_system) (p : List CStr) (apps old : List desktop_app)
    (out : List effect) (name : CStr) :
    query_entry fs { processed_app_ids := p, desktop_apps := apps ++ old, out := out } name
      = { processed_app_ids :=
            (query_entry fs { processed_app_ids := p, desktop_apps := apps, out := out } name).processed_app_ids
          desktop_apps :=
            (query_entry fs { processed_app_ids := p, desktop_apps := apps, out := out } name).desktop_apps ++ old
          out := (query_entry fs { processed_app_ids := p, desktop_apps := apps, out := out } name).out } := by
  by_cases h1 : has_desktop_suffix name = true
  · by_cases h2 : (p.any fun q =>
        strcmp_eq q (name.take (name.length - ".desktop".toList.length))) = true
    · simp only [query_entry, h1, h2, if_true]
    · simp only [query_entry, h1, h2, if_true, if_false, wl_list_insert, List.cons_append,
        Bool.false_eq_true]
  · simp only [query_entry, h1, if_false, Bool.false_eq_true]

/-- The same for all names of a directory. -/
theorem query_names_catalog (fs : file_system) (old : List desktop_app) (names : List CStr) :
    ∀ st : scan_state,
    names.foldl (query_entry fs) { st with desktop_apps := st.desktop_apps ++ old }
      = { names.foldl (query_entry fs) st with
          desktop_apps := (names.foldl (query_entry fs) st).desktop_apps ++ old } := by
  induction names with
  | nil => intro st; rfl
  | cons n rest ih =>
    intro st
    simp only [List.foldl_cons]
    have h := query_entry_catalog fs st.processed_app_ids st.desktop_apps old st.out n
    rw [h]
    exact ih (query_entry fs st n)

/-- The same for all directories of a scan. -/
theorem query_dirs_catalog (fs : file_system) (old : List desktop_app) (dirs : List directory) :
    ∀ st : scan_state,
    dirs.foldl (query_dir fs) { st with desktop_apps := st.desktop_apps ++ old }
      = { dirs.foldl (query_dir fs) st with
          desktop_apps := (dirs.foldl (query_dir fs) st).desktop_apps ++ old } := by
  induction dirs with
  | nil => intro st; rfl
  | cons d rest ih =>
    intro st
    simp only [List.foldl_cons]
    have h : query_dir fs { st with desktop_apps := st.desktop_apps ++ old } d
        = { query_dir fs st d with desktop_apps := (query_dir fs st d).desktop_apps ++ old } := by
      cases d with
      | none => rfl
      | some entries => exact query_names_catalog fs old _ st
    rw [h]
    exact ih (query_dir fs st d)

/-- A scan puts in front of the catalog what it would put into an empty catalog,
whatever the catalog holds already, and prints the same lines. -/
theorem query_desktop_files_catalog (fs : file_system) (state : client_state) :
    (query_desktop_files fs state).1.desktop_apps
        = (query_desktop_files fs empty_state).1.desktop_apps ++ state.desktop_apps
    ∧ (query_desktop_files fs state).2 = (query_desktop_files fs empty_state).2 := by
  have h := query_dirs_catalog fs state.desktop_apps (app_dirs fs)
    { processed_app_ids := [], desktop_apps := [], out := [] }
  simp only [List.nil_append] at h
  refine ⟨?_, ?_⟩ <;> simp only [query_desktop_files, empty_state, h]

/-- The line `QUERY` runs one scan. -/
theorem handle_command_query (fs : file_system) (state : client_state) :
    (handle_command fs state "QUERY\n".toList).1 = (query_desktop_files fs state).1 := by
  have htok : strtok "QUERY\n".toList " \n".toList = ["QUERY".toList] := by decide
  unfold handle_command
  rw [htok]
  rfl

/-- C12, evaluated: two QUERY lines over the same three descriptor files, from
the initial state, leave six descriptors in the catalog, every appId twice.
In general the second of two QUERY lines over unchanged files puts the
descriptors of the scan in front of the catalog once more, so whenever a scan
finds a descriptor at all the appIds in the catalog are no longer distinct. -/
theorem C12_second_query_duplicates_catalog :
    (run c10_fs initial_state
        [input.command "QUERY\n".toList, input.command "QUERY\n".toList]).1.state.desktop_apps.map
        (fun d => d.app_id)
      = ["mpv".toList, "firefox".toList, "foot".toList, "mpv".toList, "firefox".toList, "foot".toList]
    ∧ ¬ ((run c10_fs initial_state
        [input.command "QUERY\n".toList, input.command "QUERY\n".toList]).1.state.desktop_apps.map
        (fun d => d.app_id)).Nodup
    ∧ (∀ (fs : file_system) (p : program_state),
        (run fs p [input.command "QUERY\n".toList, input.command "QUERY\n".toList]).1.state.desktop_apps
          = (query_desktop_files fs empty_state).1.desktop_apps
            ++ ((query_desktop_files fs empty_state).1.desktop_apps ++ p.state.desktop_apps))
    ∧ (∀ (fs : file_system) (p : program_state),
        (query_desktop_files fs empty_state).1.desktop_apps ≠ [] →
        ¬ ((run fs p [input.command "QUERY\n".toList,
            input.command "QUERY\n".toList]).1.state.desktop_apps.map (fun d => d.app_id)).Nodup) := by
  have hgen : ∀ (fs : file_system) (p : program_state),
      (run fs p [input.command "QUERY\n".toList, input.command "QUERY\n".toList]).1.state.desktop_apps
        = (query_desktop_files fs empty_state).1.desktop_apps
          ++ ((query_desktop_files fs empty_state).1.desktop_apps ++ p.state.desktop_apps) := by
    intro fs p
    simp only [run, step, handle_command_query]
    rw [(query_desktop_files_catalog fs _).1, (query_desktop_files_catalog fs p.state).1]
  refine ⟨by decide, by decide, hgen, ?_⟩
  intro fs p hne hnd
  rw [hgen fs p] at hnd
  obtain ⟨d, rest, hd⟩ := List.exists_cons_of_ne_nil hne
  rw [hd] at hnd
  simp only [List.map_append, List.map_cons, List.cons_append, List.nodup_cons, List.mem_append,
    List.mem_cons, true_or, or_true, not_true_eq_false, false_and] at hnd

end Tixbar
